import Mathlib

/-!
# Incident Tracker: validation middleware and incident controller

A shallow embedding of `backend/middleware/validation.js`,
`backend/controllers/incidentController.js` and the creation route of
`backend/routes/incidents.js`.

* JavaScript values are the inductive type `JsVal`; a JSON object is a list of
  key/value pairs in which the last binding of a key wins, as `JSON.parse` does.
* A handler is a function from the request and the replies of `pool.query` to the
  response written and the list of statements issued.
* The SQL text a handler assembles from an array of fragments is kept as the list
  of fragments (`Cond`, `SetItem`) together with the function that prints it.
* A JavaScript number is a `JsNum`: `NaN`, an infinity, or a finite double whose
  value is an integer. Every integer that arithmetic or `parseInt` produces is
  rounded to the nearest double (`roundInt`), and a quotient is rounded as a
  rational before `Math.ceil` is taken (`roundPos`).
-/

namespace IncidentTracker

/-! ## JavaScript numbers -/

/-- A JavaScript number without a fraction: `NaN`, `Infinity` or `-Infinity`, or a
finite double whose value is the integer `n`. The two zeros are one value here: both
are falsy, and both print as `0`. -/
inductive JsNum where
  | nan
  | inf (negative : Bool)
  | fin (n : Int)
deriving DecidableEq

instance (n : Nat) : OfNat JsNum n := ⟨JsNum.fin n⟩

instance : Inhabited JsNum := ⟨JsNum.nan⟩

/-- Truthiness of a number: `NaN` and `0` are falsy. -/
def JsNum.truthy : JsNum → Bool
  | .nan => false
  | .inf _ => true
  | .fin n => decide (n ≠ 0)

/-- The comparison `x >= k` for an integer `k`; `NaN` compares false. -/
def JsNum.geInt (x : JsNum) (k : Int) : Bool :=
  match x with
  | .nan => false
  | .inf negative => !negative
  | .fin n => decide (k ≤ n)

/-- The least `e`, counted up from the given one, at which `m / 2^e` is below `2^53`;
the search gives up after `fuel` steps. -/
def findExponent : Nat → Nat → Nat → Nat
  | 0, e, _ => e
  | fuel + 1, e, m =>
    if m >>> e < 9007199254740992 then e else findExponent fuel (e + 1) m

/-- The double nearest to the integer `n` (round to nearest, ties to even): an integer
of magnitude below `2^53` is a double; a larger one keeps its leading 53 bits `q`,
rounded by the bits `r` cut off below the exponent `e`; a magnitude that reaches
`2^1024` is an infinity. -/
def roundInt (n : Int) : JsNum :=
  let m := n.natAbs
  if m < 9007199254740992 then .fin n
  else
    let e := findExponent 972 0 m
    if 971 < e then .inf (decide (n < 0))
    else
      let q := m >>> e
      let r := m - (q <<< e)
      let half := 1 <<< (e - 1)
      let q := if half < r ∨ (r = half ∧ q % 2 = 1) then q + 1 else q
      if e = 971 ∧ q = 9007199254740992 then .inf (decide (n < 0))
      else .fin (if n < 0 then -((q <<< e : Nat) : Int) else ((q <<< e : Nat) : Int))

/-- The difference `x - y` of two numbers. -/
def JsNum.sub : JsNum → JsNum → JsNum
  | .nan, _ => .nan
  | _, .nan => .nan
  | .inf a, .inf b => if a = b then .nan else .inf a
  | .inf a, .fin _ => .inf a
  | .fin _, .inf b => .inf (!b)
  | .fin a, .fin b => roundInt (a - b)

/-- The product `x * y` of two numbers; `0 * Infinity` is `NaN`. -/
def JsNum.mul : JsNum → JsNum → JsNum
  | .nan, _ => .nan
  | _, .nan => .nan
  | .inf a, .inf b => .inf (a != b)
  | .inf a, .fin n => if n = 0 then .nan else .inf (a != decide (n < 0))
  | .fin n, .inf b => if n = 0 then .nan else .inf (decide (n < 0) != b)
  | .fin a, .fin b => roundInt (a * b)

instance : Sub JsNum := ⟨JsNum.sub⟩

instance : Mul JsNum := ⟨JsNum.mul⟩

/-- Rounding of a rational to the nearest integer, ties to the even one. -/
def roundHalfEven (k : ℚ) : Int :=
  let f := Int.floor k
  let frac := k - f
  if 1 / 2 < frac ∨ (frac = 1 / 2 ∧ f % 2 = 1) then f + 1 else f

/-- The double nearest to the positive rational `s`: with `2^e` the power of two at or
below `s` (not below the least normal exponent, -1022), `s` is rounded to a multiple
of `2^(e - 52)`; `none` when the result reaches `2^1024`. -/
def roundPos (s : ℚ) : Option ℚ :=
  let e := max (Int.log 2 s) (-1022)
  let quantum : ℚ := 2 ^ (e - 52)
  let v := roundHalfEven (s / quantum) * quantum
  if v < 2 ^ (1024 : ℤ) then some v else none

/-- The expression `Math.ceil(t / l)` for finite `t` and a finite `l` other than `0`:
the quotient is rounded to a double, then taken up to an integer. -/
def ceilQuotient (t l : Int) : JsNum :=
  let q : ℚ := (t : ℚ) / (l : ℚ)
  if q = 0 then 0
  else
    match roundPos |q| with
    | none => .inf (decide (q < 0))
    | some v => .fin (if q < 0 then Int.ceil (-v) else Int.ceil v)

/-- The expression `Math.ceil(x / y)` of two numbers. -/
def JsNum.ceilDiv : JsNum → JsNum → JsNum
  | .nan, _ => .nan
  | _, .nan => .nan
  | .inf _, .inf _ => .nan
  | .inf a, .fin l => .inf (a != decide (l < 0))
  | .fin _, .inf _ => 0
  | .fin t, .fin l =>
    if l = 0 then (if t = 0 then .nan else .inf (decide (t < 0))) else ceilQuotient t l

/-! ## JavaScript values -/

/-- A JavaScript value as found in a parsed JSON body, in a row returned by the
reference table, or in the parameter list of a statement. -/
inductive JsVal where
  | undefined
  | null
  | bool (b : Bool)
  | num (n : JsNum)
  | str (s : String)
  | arr (items : List JsVal)
  | obj (fields : List (String × JsVal))

instance : Inhabited JsVal := ⟨JsVal.undefined⟩

/-- A JSON object: keys with their values, in source order. -/
abbrev JsObject := List (String × JsVal)

/-- Property read `o[key]`: the last binding of `key`, `undefined` when there is none. -/
def getProp (o : JsObject) (key : String) : JsVal :=
  o.foldl (fun acc kv => if kv.1 = key then kv.2 else acc) JsVal.undefined

/-- JavaScript truthiness (`ToBoolean`). -/
def JsVal.truthy : JsVal → Bool
  | .undefined => false
  | .null => false
  | .bool b => b
  | .num n => n.truthy
  | .str s => !s.data.isEmpty
  | .arr _ => true
  | .obj _ => true

/-- Test `v !== undefined`. -/
def JsVal.isDefined : JsVal → Bool
  | .undefined => false
  | _ => true

/-- Code points removed by `String.prototype.trim`: the ECMAScript white space and
line terminator characters. -/
def whiteSpaceCodes : List Nat :=
  [9, 10, 11, 12, 13, 32, 160, 5760, 8192, 8193, 8194, 8195, 8196, 8197, 8198, 8199,
   8200, 8201, 8202, 8232, 8233, 8239, 8287, 12288, 65279]

/-- Whether `c` is stripped by `trim`. -/
def isJsWhitespace (c : Char) : Bool :=
  whiteSpaceCodes.contains c.toNat

/-- The characters of `s.trim()`. -/
def jsTrim (cs : List Char) : List Char :=
  ((cs.dropWhile isJsWhitespace).reverse.dropWhile isJsWhitespace).reverse

/-- Array test `list.includes(v)` for an array of string literals: strict equality,
so only a string can be included. -/
def includesStr (list : List String) : JsVal → Bool
  | .str s => list.contains s
  | _ => false

/-! ## HTTP responses -/

/-- The `pagination` object of the list response. -/
structure Pagination where
  page : JsNum
  limit : JsNum
  totalCount : JsNum
  totalPages : JsNum

/-- A column value in a row handed back by the database driver. -/
inductive DbVal where
  | null
  | text (s : String)
  | timestamp (t : Nat)

/-- A row handed back by the database driver. -/
abbrev Row := List (String × DbVal)

/-- Property read `row[key]`; `none` is `undefined`. -/
def Row.get (row : Row) (key : String) : Option DbVal :=
  row.foldl (fun acc kv => if kv.1 = key then some kv.2 else acc) none

/-- The JSON body passed to `res.json`. -/
inductive RespBody where
  | errors (msgs : List String)
  | error (msg : String)
  | row (r : Option Row)
  | list (incidents : List Row) (pagination : Pagination)

/-- A written response: the status code and the JSON body. -/
structure Response where
  status : Nat
  body : RespBody

/-! ## Validation middleware (`middleware/validation.js`) -/

/-- The severity enumeration literal of the source. -/
def severityValues : List String := ["SEV1", "SEV2", "SEV3", "SEV4"]

/-- The status enumeration literal of the source. -/
def statusValues : List String := ["OPEN", "MITIGATED", "RESOLVED"]

/-- The test `!v || v.trim().length === 0`. A truthy value that is not a string has
no `trim` method, so the call throws a `TypeError`: `none`. -/
def blankCheck (v : JsVal) : Option Bool :=
  if !v.truthy then some true
  else match v with
    | .str s => some ((jsTrim s.data).length == 0)
    | _ => none

/-- The test `!v || !list.includes(v)`. -/
def enumCheck (list : List String) (v : JsVal) : Bool :=
  !v.truthy || !includesStr list v

/-- What a middleware did with the request. -/
inductive MwOutcome where
  | responded (res : Response)
  | next
  | threw

/-- The request as the middleware leaves it, and what it did. -/
structure MwResult where
  body : JsObject
  outcome : MwOutcome

/-- The middleware `validateIncident (req, res, next)`. -/
def validateIncident (body : JsObject) : MwResult :=
  let title := getProp body "title"
  let service := getProp body "service"
  let severity := getProp body "severity"
  let status := getProp body "status"
  let errors : List String := []
  match blankCheck title with
  | none => ⟨body, .threw⟩
  | some titleBad =>
    let errors := if titleBad then errors ++ ["Title is required"] else errors
    match blankCheck service with
    | none => ⟨body, .threw⟩
    | some serviceBad =>
      let errors := if serviceBad then errors ++ ["Service is required"] else errors
      let errors :=
        if enumCheck severityValues severity then
          errors ++ ["Severity must be one of: SEV1, SEV2, SEV3, SEV4"]
        else errors
      let errors :=
        if enumCheck statusValues status then
          errors ++ ["Status must be one of: OPEN, MITIGATED, RESOLVED"]
        else errors
      if errors.length > 0 then ⟨body, .responded ⟨400, .errors errors⟩⟩
      else ⟨body, .next⟩

/-! ## SQL statements -/

/-- One element of the `updates` array of `updateIncident`. -/
inductive SetItem where
  | bind (column : String) (param : Nat)
  | touch

/-- The text of an element of `updates`. -/
def SetItem.render : SetItem → String
  | .bind column param => column ++ " = $" ++ toString param
  | .touch => "updated_at = CURRENT_TIMESTAMP"

/-- One element of the `whereConditions` array of `getIncidents`. -/
inductive Cond where
  | search (param : Nat)
  | anyOf (column : String) (param : Nat)

/-- The text of an element of `whereConditions`. -/
def Cond.render : Cond → String
  | .search param =>
      "(title ILIKE $" ++ toString param ++ " OR summary ILIKE $" ++ toString param ++ ")"
  | .anyOf column param => column ++ " = ANY($" ++ toString param ++ ")"

/-- The statements the controller sends, each determined by the fragments the
handler assembled. -/
inductive Sql where
  | insertIncident
  | selectById
  | count (conds : List Cond)
  | page (conds : List Cond) (sortBy sortOrder : String) (limitParam offsetParam : Nat)
  | update (sets : List SetItem) (idParam : Nat)

/-- The expression `whereConditions.length > 0 ? 'WHERE ' + whereConditions.join(' AND ') : ''`. -/
def whereClause (conds : List Cond) : String :=
  if conds.length > 0 then "WHERE " ++ String.intercalate " AND " (conds.map Cond.render)
  else ""

/-- The query text passed to `pool.query`. -/
def Sql.render : Sql → String
  | .insertIncident =>
      "\n      INSERT INTO incidents (title, service, severity, status, owner, summary)" ++
      "\n      VALUES ($1, $2, $3, $4, $5, $6)\n      RETURNING *\n    "
  | .selectById => "SELECT * FROM incidents WHERE id = $1"
  | .count conds => "SELECT COUNT(*) FROM incidents " ++ whereClause conds
  | .page conds sortBy sortOrder limitParam offsetParam =>
      "\n      SELECT * FROM incidents\n      " ++ whereClause conds ++
      "\n      ORDER BY " ++ sortBy ++ " " ++ sortOrder ++
      "\n      LIMIT $" ++ toString limitParam ++ " OFFSET $" ++ toString offsetParam ++
      "\n    "
  | .update sets idParam =>
      "\n      UPDATE incidents\n      SET " ++
      String.intercalate ", " (sets.map SetItem.render) ++
      "\n      WHERE id = $" ++ toString idParam ++ "\n      RETURNING *\n    "

/-- A call `pool.query(text, values)`. -/
structure Stmt where
  sql : Sql
  params : List JsVal

/-- What `await pool.query(...)` gives: a rejection, or the rows of the result. -/
inductive Reply where
  | failed
  | rows (rs : List Row)

/-- The connection pool, as the handler sees it: the reply to each statement. -/
abbrev Pool := Stmt → Reply

/-- The response a handler wrote and the statements it sent, in order. -/
structure HandlerResult where
  response : Response
  issued : List Stmt

/-- The response of every `catch` block of the controller. -/
def internalError : Response := ⟨500, .error "Internal server error"⟩

/-! ## `createIncident` and the creation route -/

/-- The expression `v || null`. -/
def orNull (v : JsVal) : JsVal :=
  if v.truthy then v else JsVal.null

/-- The array `values` of `createIncident`. -/
def createValues (body : JsObject) : List JsVal :=
  let title := getProp body "title"
  let service := getProp body "service"
  let severity := getProp body "severity"
  let status := getProp body "status"
  let owner := getProp body "owner"
  let summary := getProp body "summary"
  [title, service, severity, status, orNull owner, orNull summary]

/-- The handler `createIncident (req, res)` with `req.body = body`. -/
def createIncident (pool : Pool) (body : JsObject) : HandlerResult :=
  let stmt : Stmt := ⟨.insertIncident, createValues body⟩
  match pool stmt with
  | .failed => ⟨internalError, [stmt]⟩
  | .rows rs => ⟨⟨201, .row rs.head?⟩, [stmt]⟩

/-- What a route did with a request: its handlers wrote a response, or an exception
left the handlers and went to the framework's error handling. -/
inductive RouteResult where
  | handled (r : HandlerResult)
  | unhandled

/-- The statements sent while a route ran. -/
def RouteResult.issued : RouteResult → List Stmt
  | .handled r => r.issued
  | .unhandled => []

/-- The route `router.post('/', validateIncident, createIncident)`: the controller
runs when the middleware calls `next()`, on the request as the middleware left it. -/
def postIncident (pool : Pool) (body : JsObject) : RouteResult :=
  match (validateIncident body).outcome with
  | .responded res => .handled ⟨res, []⟩
  | .next => .handled (createIncident pool (validateIncident body).body)
  | .threw => .unhandled

/-! ## `updateIncident` -/

/-- The three locals `updates`, `values`, `paramCounter` of `updateIncident`. -/
structure UpdateBuild where
  updates : List SetItem
  values : List JsVal
  paramCounter : Nat

/-- The block `updates.push(column = $paramCounter); values.push(v); paramCounter++`. -/
def UpdateBuild.push (b : UpdateBuild) (column : String) (v : JsVal) : UpdateBuild :=
  ⟨b.updates ++ [.bind column b.paramCounter], b.values ++ [v], b.paramCounter + 1⟩

/-- Lines 138 to 185 of `updateIncident`: the dynamic construction of the update,
ending either in an early `400` response or in the finished fragments. -/
def buildUpdate (id : String) (body : JsObject) : Except Response UpdateBuild :=
  let title := getProp body "title"
  let service := getProp body "service"
  let severity := getProp body "severity"
  let status := getProp body "status"
  let owner := getProp body "owner"
  let summary := getProp body "summary"
  let b : UpdateBuild := ⟨[], [], 1⟩
  let b := if title.isDefined then b.push "title" title else b
  let b := if service.isDefined then b.push "service" service else b
  if severity.isDefined && !includesStr severityValues severity then
    .error ⟨400, .error "Invalid severity value"⟩
  else
    let b := if severity.isDefined then b.push "severity" severity else b
    if status.isDefined && !includesStr statusValues status then
      .error ⟨400, .error "Invalid status value"⟩
    else
      let b := if status.isDefined then b.push "status" status else b
      let b := if owner.isDefined then b.push "owner" owner else b
      let b := if summary.isDefined then b.push "summary" summary else b
      if b.updates.length = 0 then
        .error ⟨400, .error "No fields to update"⟩
      else
        .ok ⟨b.updates ++ [.touch], b.values ++ [.str id], b.paramCounter⟩

/-- The statement `SELECT * FROM incidents WHERE id = $1` with `[id]`. -/
def selectByIdStmt (id : String) : Stmt := ⟨.selectById, [.str id]⟩

/-- The handler `updateIncident (req, res)` with `req.params.id = id` and
`req.body = body`. -/
def updateIncident (pool : Pool) (id : String) (body : JsObject) : HandlerResult :=
  let checkStmt := selectByIdStmt id
  match pool checkStmt with
  | .failed => ⟨internalError, [checkStmt]⟩
  | .rows checkRows =>
    if checkRows.length = 0 then
      ⟨⟨404, .error "Incident not found"⟩, [checkStmt]⟩
    else
      match buildUpdate id body with
      | .error res => ⟨res, [checkStmt]⟩
      | .ok b =>
        let stmt : Stmt := ⟨.update b.updates b.paramCounter, b.values⟩
        match pool stmt with
        | .failed => ⟨internalError, [checkStmt, stmt]⟩
        | .rows rs => ⟨⟨200, .row rs.head?⟩, [checkStmt, stmt]⟩

/-! ## `getIncidents` -/

/-- A value of `req.query` as the query-string parser delivers it: the key is not
given, given once, or given several times (an array of strings). -/
inductive QVal where
  | absent
  | str (s : String)
  | arr (items : List String)

/-- Truthiness of a query value: an array is an object, hence truthy. -/
def QVal.truthy : QVal → Bool
  | .absent => false
  | .str s => !s.data.isEmpty
  | .arr _ => true

/-- String conversion (`String(v)`, template literal): an array is joined with commas. -/
def QVal.toStr : QVal → String
  | .absent => "undefined"
  | .str s => s
  | .arr items => String.intercalate "," items

/-- The eight keys of `req.query` that `getIncidents` reads. -/
structure ListQuery where
  page : QVal
  limit : QVal
  search : QVal
  services : QVal
  severities : QVal
  statuses : QVal
  sortBy : QVal
  sortOrder : QVal

/-- Value of the character `c` as a digit of the given radix, if it is one. -/
def digitValue (radix : Nat) (c : Char) : Option Nat :=
  let n := c.toNat
  let d : Option Nat :=
    if 48 ≤ n ∧ n ≤ 57 then some (n - 48)
    else if 97 ≤ n ∧ n ≤ 122 then some (n - 87)
    else if 65 ≤ n ∧ n ≤ 90 then some (n - 55)
    else none
  d.filter (fun k => decide (k < radix))

/-- The longest run of digits of the given radix at the start of `cs`. -/
def readDigits (radix : Nat) : List Char → List Nat
  | [] => []
  | c :: cs =>
    match digitValue radix c with
    | some d => d :: readDigits radix cs
    | none => []

/-- The sign read by `parseInt`, and the rest of the input. -/
def readSign : List Char → Int × List Char
  | c :: cs => if c = '-' then (-1, cs) else if c = '+' then (1, cs) else (1, c :: cs)
  | [] => (1, [])

/-- The radix chosen by `parseInt` without a radix argument: 16 after `0x` or `0X`. -/
def readRadix : List Char → Nat × List Char
  | c :: d :: cs =>
    if c = '0' ∧ (d = 'x' ∨ d = 'X') then (16, cs) else (10, c :: d :: cs)
  | cs => (10, cs)

/-- The integer that `parseInt(string)` reads: leading white space, a sign, an
optional hex marker, then as many digits as there are; `none` when there is no digit. -/
def mathInt (cs : List Char) : Option Int :=
  let cs := cs.dropWhile isJsWhitespace
  let (sign, cs) := readSign cs
  let (radix, cs) := readRadix cs
  let ds := readDigits radix cs
  if ds.isEmpty then none
  else some (sign * (ds.foldl (fun acc d => acc * radix + d) 0 : Nat))

/-- The function `parseInt(string)`: `NaN` without a digit, otherwise the double
nearest to the integer read. -/
def parseIntChars (cs : List Char) : JsNum :=
  match mathInt cs with
  | none => .nan
  | some n => roundInt n

/-- The expression `parseInt(v) || dflt`: `NaN` and `0` are falsy. -/
def parseIntOr (v : QVal) (dflt : JsNum) : JsNum :=
  let n := parseIntChars v.toStr.data
  if n.truthy then n else dflt

/-- The pieces of `s.split(',')`, as character lists. -/
def splitComma : List Char → List (List Char)
  | [] => [[]]
  | c :: cs =>
    if c = ',' then [] :: splitComma cs
    else match splitComma cs with
      | [] => [[c]]
      | w :: ws => (c :: w) :: ws

/-- The expression `v ? v.split(',') : []`. An array has no `split` method: `none`. -/
def filterList : QVal → Option (List String)
  | .absent => some []
  | .str s =>
    if (QVal.str s).truthy then some ((splitComma s.data).map String.mk) else some []
  | .arr _ => none

/-- Upper case of one character as far as `toUpperCase() === 'ASC'` can tell: the
ASCII letters, and U+017F whose upper case is `S`. No other character, alone or
by a multi-character mapping, has an upper case made of `A`, `S`, `C`. -/
def upperChar (c : Char) : Char :=
  if c.toNat = 383 then 'S' else c.toUpper

/-- The call `v.toUpperCase()`. An array has no such method: `none`. -/
def toUpperCase : QVal → Option String
  | .absent => none
  | .str s => some (String.mk (s.data.map upperChar))
  | .arr _ => none

/-- The literal `allowedSortColumns`. -/
def allowedSortColumns : List String :=
  ["title", "service", "severity", "status", "created_at", "owner"]

/-- The expression `allowedSortColumns.includes(sortBy) ? sortBy : 'created_at'`. -/
def safeSortBy (sortBy : QVal) : String :=
  match sortBy with
  | .str s => if allowedSortColumns.contains s then s else "created_at"
  | _ => "created_at"

/-- The expression `v || dflt` on query values. -/
def QVal.orElse (v : QVal) (dflt : String) : QVal :=
  if v.truthy then v else .str dflt

/-- The locals `whereConditions`, `queryParams`, `paramCounter` of `getIncidents`. -/
structure WhereBuild where
  whereConditions : List Cond
  queryParams : List JsVal
  paramCounter : Nat

/-- The block `whereConditions.push(c); queryParams.push(v); paramCounter++`. -/
def WhereBuild.push (b : WhereBuild) (c : Nat → Cond) (v : JsVal) : WhereBuild :=
  ⟨b.whereConditions ++ [c b.paramCounter], b.queryParams ++ [v], b.paramCounter + 1⟩

/-- A list of strings as a statement parameter. -/
def strArray (items : List String) : JsVal := .arr (items.map JsVal.str)

/-- Lines 38 to 65 of `getIncidents`: the construction of the `WHERE` conditions and
their parameters from the search string and the three filter lists. -/
def buildWhere (search : QVal) (services severities statuses : List String) : WhereBuild :=
  let b : WhereBuild := ⟨[], [], 1⟩
  let b := if search.truthy then b.push Cond.search (.str ("%" ++ search.toStr ++ "%")) else b
  let b := if services.length > 0 then b.push (Cond.anyOf "service") (strArray services) else b
  let b :=
    if severities.length > 0 then b.push (Cond.anyOf "severity") (strArray severities) else b
  let b := if statuses.length > 0 then b.push (Cond.anyOf "status") (strArray statuses) else b
  b

/-- Everything `getIncidents` computes before its first `await`. -/
structure ListPlan where
  page : JsNum
  limit : JsNum
  offset : JsNum
  whereConditions : List Cond
  queryParams : List JsVal
  paramCounter : Nat
  safeSortBy : String
  safeSortOrder : String

/-- Lines 27 to 74 of `getIncidents`; `none` when a `TypeError` is thrown. -/
def buildList (q : ListQuery) : Option ListPlan :=
  let page := parseIntOr q.page 1
  let limit := parseIntOr q.limit 10
  let offset := (page - 1) * limit
  let search := q.search.orElse ""
  match filterList q.services with
  | none => none
  | some services =>
    match filterList q.severities with
    | none => none
    | some severities =>
      match filterList q.statuses with
      | none => none
      | some statuses =>
        let sortBy := q.sortBy.orElse "created_at"
        let sortOrder := q.sortOrder.orElse "DESC"
        let b := buildWhere search services severities statuses
        match toUpperCase sortOrder with
        | none => none
        | some upper =>
          some
            { page := page, limit := limit, offset := offset,
              whereConditions := b.whereConditions, queryParams := b.queryParams,
              paramCounter := b.paramCounter,
              safeSortBy := safeSortBy sortBy,
              safeSortOrder := if upper = "ASC" then "ASC" else "DESC" }

/-- The count statement of a plan. -/
def ListPlan.countStmt (p : ListPlan) : Stmt :=
  ⟨.count p.whereConditions, p.queryParams⟩

/-- The data statement of a plan. -/
def ListPlan.dataStmt (p : ListPlan) : Stmt :=
  ⟨.page p.whereConditions p.safeSortBy p.safeSortOrder p.paramCounter (p.paramCounter + 1),
   p.queryParams ++ [.num p.limit, .num p.offset]⟩

/-- The call `parseInt(row.count)` on a driver value: only a text can start with digits
(`undefined`, `null` and a date print as text that does not). -/
def parseIntDb : Option DbVal → JsNum
  | some (.text s) => parseIntChars s.data
  | _ => .nan

/-- The expression `Math.ceil(totalCount / limit)`. -/
def totalPages (totalCount limit : JsNum) : JsNum :=
  totalCount.ceilDiv limit

/-- The handler `getIncidents (req, res)` with `req.query = q`. -/
def getIncidents (pool : Pool) (q : ListQuery) : HandlerResult :=
  match buildList q with
  | none => ⟨internalError, []⟩
  | some p =>
    match pool p.countStmt with
    | .failed => ⟨internalError, [p.countStmt]⟩
    | .rows countRows =>
      match countRows.head? with
      | none => ⟨internalError, [p.countStmt]⟩
      | some row0 =>
        let totalCount := parseIntDb (row0.get "count")
        match pool p.dataStmt with
        | .failed => ⟨internalError, [p.countStmt, p.dataStmt]⟩
        | .rows dataRows =>
          ⟨⟨200, .list dataRows
              { page := p.page, limit := p.limit, totalCount := totalCount,
                totalPages := totalPages totalCount p.limit }⟩,
           [p.countStmt, p.dataStmt]⟩

/-! ## Reference semantics of the statements over a model table

The database itself is not part of the repository. What a statement means for a
record is fixed here, for the fragments the controller generates: the `SET` list
of an update, the `WHERE` conditions, and `LIMIT`/`OFFSET`. A cell holds the value
bound to it; the schema's constraints, which can only make a statement fail as a
whole, are left to `Reply.failed`.
-/

/-- A record of the `incidents` table. -/
structure Incident where
  id : String
  title : JsVal
  service : JsVal
  severity : JsVal
  status : JsVal
  owner : JsVal
  summary : JsVal
  created_at : Nat
  updated_at : Nat

/-- The cell of a record in one of the six value columns. -/
def Incident.cell (r : Incident) (column : String) : JsVal :=
  if column = "title" then r.title
  else if column = "service" then r.service
  else if column = "severity" then r.severity
  else if column = "status" then r.status
  else if column = "owner" then r.owner
  else if column = "summary" then r.summary
  else .null

/-- Assignment `column = v`. One of the six value columns takes the value bound; `id`
takes a text and a time column a number; any other assignment leaves the record. -/
def Incident.assign (r : Incident) (column : String) (v : JsVal) : Incident :=
  if column = "title" then { r with title := v }
  else if column = "service" then { r with service := v }
  else if column = "severity" then { r with severity := v }
  else if column = "status" then { r with status := v }
  else if column = "owner" then { r with owner := v }
  else if column = "summary" then { r with summary := v }
  else if column = "id" then
    match v with
    | .str s => { r with id := s }
    | _ => r
  else if column = "created_at" then
    match v with
    | .num (.fin n) => { r with created_at := n.toNat }
    | _ => r
  else if column = "updated_at" then
    match v with
    | .num (.fin n) => { r with updated_at := n.toNat }
    | _ => r
  else r

/-- The value of placeholder `$n` in a parameter list. -/
def paramAt (params : List JsVal) (n : Nat) : JsVal :=
  params.getD (n - 1) JsVal.null

/-- The record after the `SET` list of an update executed at time `now`. -/
def applySet (now : Nat) (params : List JsVal) : List SetItem → Incident → Incident
  | [], r => r
  | .bind column n :: rest, r => applySet now params rest (r.assign column (paramAt params n))
  | .touch :: rest, r => applySet now params rest { r with updated_at := now }

/-- The table after `UPDATE incidents SET sets WHERE id = $idParam`. -/
def execUpdate (now : Nat) (sets : List SetItem) (idParam : Nat) (params : List JsVal)
    (table : List Incident) : List Incident :=
  table.map (fun r =>
    match paramAt params idParam with
    | .str id => if r.id = id then applySet now params sets r else r
    | _ => r)

/-- The table after a statement; only an update changes it here. -/
def execStmt (now : Nat) (table : List Incident) (stmt : Stmt) : List Incident :=
  match stmt.sql with
  | .update sets idParam => execUpdate now sets idParam stmt.params table
  | _ => table

/-- The record `INSERT INTO incidents (title, service, severity, status, owner,
summary) VALUES ($1, .., $6)` creates: the six columns take the six parameters, `id`
and both time columns take the server's defaults. -/
def insertedRecord (newId : String) (now : Nat) (params : List JsVal) : Incident :=
  { id := newId
    title := paramAt params 1
    service := paramAt params 2
    severity := paramAt params 3
    status := paramAt params 4
    owner := paramAt params 5
    summary := paramAt params 6
    created_at := now
    updated_at := now }

/-- The table after a statement, an insert included: `newId` is the identifier the
server generates and `now` its clock. -/
def runStmt (newId : String) (now : Nat) (table : List Incident) (stmt : Stmt) :
    List Incident :=
  match stmt.sql with
  | .insertIncident => table ++ [insertedRecord newId now stmt.params]
  | _ => execStmt now table stmt

/-- The database during one request: its replies, the identifier it would generate
and its clock. -/
structure Env where
  pool : Pool
  newId : String
  now : Nat

/-- The table after the database received a statement: a statement it rejects
changes nothing, one it answers has its effect. -/
def Env.exec (env : Env) (table : List Incident) (stmt : Stmt) : List Incident :=
  match env.pool stmt with
  | .failed => table
  | .rows _ => runStmt env.newId env.now table stmt

/-- A request that writes: `POST /` with a body, or `PATCH /:id` with a body. -/
inductive ApiCall where
  | create (body : JsObject)
  | update (id : String) (body : JsObject)

/-- The statements a writing request sends. -/
def ApiCall.issued (env : Env) : ApiCall → List Stmt
  | .create body => (postIncident env.pool body).issued
  | .update id body => (updateIncident env.pool id body).issued

/-- The table after one writing request. -/
def apiStep (table : List Incident) (x : Env × ApiCall) : List Incident :=
  (x.2.issued x.1).foldl x.1.exec table

/-- The table after a sequence of writing requests. -/
def apiRun (table : List Incident) (calls : List (Env × ApiCall)) : List Incident :=
  calls.foldl apiStep table

/-- Matching of `%`: the rest of the pattern matches some end of the text. -/
def matchAnyRun (rest : List Char → Bool) : List Char → Bool
  | [] => rest []
  | c :: cs => rest (c :: cs) || matchAnyRun rest cs

/-- An element of a `LIKE` pattern: `%`, `_`, a character to be found as it is, or
the escape character left dangling at the end of the pattern. -/
inductive LikeTok where
  | anyRun
  | anyOne
  | lit (c : Char)
  | invalid

/-- Reading of a `LIKE` pattern with the default escape character: `%` is any run,
`_` any one character, a backslash takes the next character literally. -/
def likeTokens : List Char → List LikeTok
  | [] => []
  | c :: cs =>
    if c = '%' then .anyRun :: likeTokens cs
    else if c = '_' then .anyOne :: likeTokens cs
    else if c = '\\' then
      match cs with
      | d :: ds => .lit d :: likeTokens ds
      | [] => [.invalid]
    else .lit c :: likeTokens cs

/-- Whether a text matches a pattern that has been read; the server rejects a
pattern that ends in the escape character, so nothing matches it. -/
def matchTokens : List LikeTok → List Char → Bool
  | [], text => text.isEmpty
  | .anyRun :: ps, text => matchAnyRun (matchTokens ps) text
  | .anyOne :: _, [] => false
  | .anyOne :: ps, _ :: ts => matchTokens ps ts
  | .lit _ :: _, [] => false
  | .lit c :: ps, t :: ts => decide (c = t) && matchTokens ps ts
  | .invalid :: _, _ => false

/-- The operator `text LIKE pattern`. -/
def likeMatch (pattern text : List Char) : Bool :=
  matchTokens (likeTokens pattern) text

/-- Case folding of `ILIKE` (ASCII letters). -/
def foldCase (cs : List Char) : List Char := cs.map Char.toLower

/-- The condition `cell ILIKE pattern`: not satisfied by `NULL`. -/
def ilikeCell (cell : JsVal) (pattern : String) : Bool :=
  match cell with
  | .str text => likeMatch (foldCase pattern.data) (foldCase text.data)
  | _ => false

/-- The condition `cell = ANY(items)`: not satisfied by `NULL`. -/
def anyCell (cell : JsVal) (items : List JsVal) : Bool :=
  match cell with
  | .str text => items.any (fun i => match i with
      | .str s => decide (s = text)
      | _ => false)
  | _ => false

/-- Whether a record satisfies one generated condition under a parameter list. -/
def Cond.holds (params : List JsVal) (r : Incident) : Cond → Bool
  | .search n =>
    match paramAt params n with
    | .str pattern => ilikeCell r.title pattern || ilikeCell r.summary pattern
    | _ => false
  | .anyOf column n =>
    match paramAt params n with
    | .arr items => anyCell (r.cell column) items
    | _ => false

/-- Whether a record satisfies the `WHERE` clause: all conditions, joined by `AND`;
no clause at all when there is no condition. -/
def whereHolds (conds : List Cond) (params : List JsVal) (r : Incident) : Bool :=
  conds.all (Cond.holds params r)

/-- The rows `LIMIT limit OFFSET offset` keeps of an ordered result. -/
def limitOffset {α : Type} (limit offset : Nat) (ordered : List α) : List α :=
  (ordered.drop offset).take limit

/-- The reply to a data statement over the ordered matches: the rows that
`LIMIT $l OFFSET $o` keeps, for the values bound to the two placeholders of the
statement. The server rejects a bound that is negative, beyond the range of a
`bigint`, or not a finite number. -/
def pageOf (ordered : List Row) (stmt : Stmt) : Reply :=
  match stmt.sql with
  | .page _ _ _ limitParam offsetParam =>
    match paramAt stmt.params limitParam, paramAt stmt.params offsetParam with
    | .num (.fin l), .num (.fin o) =>
      if 0 ≤ l ∧ 0 ≤ o ∧ l < 9223372036854775808 ∧ o < 9223372036854775808 then
        .rows (limitOffset l.toNat o.toNat ordered)
      else .failed
    | _, _ => .failed
  | _ => .failed

/-! ## The rules of the specification -/

/-- A payload field that is a string or absent. -/
def StrOrAbsent (v : JsVal) : Prop := v = JsVal.undefined ∨ ∃ s, v = JsVal.str s

/-- Rule of the specification for `title` and `service`: the field is absent,
empty or made of white space only. -/
def isBlankField : JsVal → Bool
  | .undefined => true
  | .str s => s.data.all isJsWhitespace
  | _ => false

/-- Rule of the specification for `severity` and `status`: the field is not a
member of the enumeration. -/
def notInEnum (list : List String) : JsVal → Bool
  | .str s => decide (s ∉ list)
  | _ => true

/-- The four rules of the creation payload, in order, each with its message. -/
def ruleTable (body : JsObject) : List (Bool × String) :=
  [(isBlankField (getProp body "title"), "Title is required"),
   (isBlankField (getProp body "service"), "Service is required"),
   (notInEnum severityValues (getProp body "severity"),
      "Severity must be one of: SEV1, SEV2, SEV3, SEV4"),
   (notInEnum statusValues (getProp body "status"),
      "Status must be one of: OPEN, MITIGATED, RESOLVED")]

/-- The messages of the violated rules: one per violated rule, in rule order. -/
def violations (body : JsObject) : List String :=
  ((ruleTable body).filter (fun r => r.1)).map (fun r => r.2)

/-! ## The update path as the specification describes it -/

/-- The six updatable fields, in the order the handler visits them. -/
def updatableFields : List String :=
  ["title", "service", "severity", "status", "owner", "summary"]

/-- The updatable fields present (not `undefined`) in a payload. -/
def presentFields (body : JsObject) : List String :=
  updatableFields.filter (fun f => (getProp body f).isDefined)

/-- The payload passes the enumeration checks of the update path. -/
def EnumChecksPass (body : JsObject) : Prop :=
  ((getProp body "severity").isDefined = true →
      includesStr severityValues (getProp body "severity") = true) ∧
  ((getProp body "status").isDefined = true →
      includesStr statusValues (getProp body "status") = true)

/-- The `SET` list the specification describes: the present fields in field order,
the k-th bound to placeholder `$k`, then the timestamp refresh. -/
def expectedSets (body : JsObject) : List SetItem :=
  ((presentFields body).enumFrom 1).map (fun p => SetItem.bind p.2 p.1) ++ [SetItem.touch]

/-- The parameter list the specification describes: the payload's value of each
present field, then the path id. -/
def expectedValues (id : String) (body : JsObject) : List JsVal :=
  (presentFields body).map (getProp body) ++ [JsVal.str id]

/-- The record the specification expects after a partial update at time `now`: the
fields present in the payload take the payload's value, `updated_at` is refreshed,
everything else is as before. -/
def patched (now : Nat) (body : JsObject) (r : Incident) : Incident :=
  { id := r.id
    title := if (getProp body "title").isDefined then getProp body "title" else r.title
    service := if (getProp body "service").isDefined then getProp body "service" else r.service
    severity := if (getProp body "severity").isDefined then getProp body "severity" else r.severity
    status := if (getProp body "status").isDefined then getProp body "status" else r.status
    owner := if (getProp body "owner").isDefined then getProp body "owner" else r.owner
    summary := if (getProp body "summary").isDefined then getProp body "summary" else r.summary
    created_at := r.created_at
    updated_at := now }

/-- A pool in which the requested record exists: the existence check finds one row. -/
def existingPool : Pool := fun stmt =>
  match stmt.sql with
  | .selectById => .rows [[("id", .text "7"), ("status", .text "OPEN")]]
  | .update _ _ => .rows [[("id", .text "7"), ("status", .text "RESOLVED")]]
  | _ => .rows []

/-- A pool over an empty table: every statement returns no row. -/
def emptyPool : Pool := fun _ => .rows []

/-! ## The list path as the specification describes it -/

/-- Whether a query value is an array. -/
def QVal.isArr : QVal → Bool
  | .arr _ => true
  | _ => false

/-- A query in which the three filters and the sort order are given at most once, so
that no string method is called on an array. -/
def ListQuery.Plain (q : ListQuery) : Prop :=
  q.services.isArr = false ∧ q.severities.isArr = false ∧ q.statuses.isArr = false ∧
  q.sortOrder.isArr = false

/-- A query with none of the eight keys. -/
def emptyQuery : ListQuery :=
  ⟨.absent, .absent, .absent, .absent, .absent, .absent, .absent, .absent⟩

/-- The ordered matches of a table of 25 rows, with the ids 1 to 25. -/
def sampleRows : List Row :=
  (List.range 25).map (fun i => [("id", DbVal.text (toString (i + 1)))])

/-- A pool over the 25 rows of `sampleRows`: the count is "25", a data statement is
answered with the page it asks for. -/
def countingPool : Pool := fun stmt =>
  match stmt.sql with
  | .count _ => .rows [[("count", .text "25")]]
  | .page _ _ _ _ _ => pageOf sampleRows stmt
  | _ => .rows []

/-- The comma-separated list a filter string stands for. -/
def commaList (s : String) : List String := (splitComma s.data).map String.mk

/-- The restriction a filter puts on the cell of its field, in the words of the
specification: none when the filter is absent or empty, membership in the
comma-separated list otherwise. -/
def filterAdmits (filter : QVal) (cell : JsVal) : Prop :=
  match filter with
  | .str s => s = "" ∨ ∃ v, cell = JsVal.str v ∧ v ∈ commaList s
  | _ => True

/-- The restriction the search string puts on a record: none when it is absent or
empty, otherwise `ILIKE` against `%search%` on the title or on the summary. -/
def searchAdmits (search : QVal) (r : Incident) : Prop :=
  search.truthy = false ∨
  ilikeCell r.title ("%" ++ search.toStr ++ "%") = true ∨
  ilikeCell r.summary ("%" ++ search.toStr ++ "%") = true

/-- The records of a table that satisfy the `WHERE` clause of a plan: the rows the
count statement counts and the data statement orders and pages. -/
def matchingRows (p : ListPlan) (table : List Incident) : List Incident :=
  table.filter (whereHolds p.whereConditions p.queryParams)

/-- Whether a character has a special meaning in a `LIKE` pattern. -/
def isLikeMeta (c : Char) : Bool := c = '%' || c = '_' || c = '\\'

/-- Whether the text of `cell` contains `s`, compared case-insensitively. -/
def containsFold (cell : JsVal) (s : String) : Prop :=
  ∃ t, cell = JsVal.str t ∧ foldCase s.data <:+: foldCase t.data

/-- Whether a string holds a character that is special in a `LIKE` pattern. -/
def hasLikeMeta (s : String) : Bool := s.data.any isLikeMeta

/-- A record whose title is the single letter "a" and that has no summary. -/
def shortTitleRecord : Incident :=
  ⟨"7", .str "a", .str "Backend", .str "SEV2", .str "OPEN", .null, .null, 100, 100⟩

/-- Which of the four filters of a query are non-empty: search, services, severities,
statuses. -/
def presence (q : ListQuery) : Bool × Bool × Bool × Bool :=
  (q.search.truthy, q.services.truthy, q.severities.truthy, q.statuses.truthy)

/-- A record with status `OPEN` whose title mentions a timeout. -/
def timeoutRecord : Incident :=
  ⟨"11", .str "API Timeout", .str "Backend", .str "SEV2", .str "OPEN", .null, .null, 100, 100⟩

/-! ## Placeholders, invariants and sample data for the write paths -/

/-- A creation payload that passes validation and carries the number `0` as owner. -/
def zeroOwnerBody : JsObject :=
  [("title", .str "Login Failure"), ("service", .str "Auth"), ("severity", .str "SEV1"),
   ("status", .str "OPEN"), ("owner", .num 0)]

/-- A creation payload that is valid but for its title, the number `123`. -/
def numberTitleBody : JsObject :=
  [("title", .num 123), ("service", .str "Auth"), ("severity", .str "SEV1"),
   ("status", .str "OPEN")]

/-- The twelve `ORDER BY` operands the data query can carry. -/
def orderByOperands : List String :=
  ["title ASC", "title DESC", "service ASC", "service DESC", "severity ASC", "severity DESC",
   "status ASC", "status DESC", "created_at ASC", "created_at DESC", "owner ASC", "owner DESC"]

/-- The placeholder number a condition refers to. -/
def Cond.param : Cond → Nat
  | .search n => n
  | .anyOf _ n => n

/-- The placeholder number an assignment refers to, if it refers to one. -/
def SetItem.param? : SetItem → Option Nat
  | .bind _ n => some n
  | .touch => none

/-- The values of a filter key: the comma-separated list, nothing for an absent,
empty or repeated key. -/
def filterItems (v : QVal) : List String := (filterList v).getD []

/-- The conditions of a request as the specification lists them, each with the value
it is about: the search pattern, then the value list of each non-empty filter, in the
order search, services, severities, statuses. -/
def conditionTable (q : ListQuery) : List ((Nat → Cond) × JsVal) :=
  (if q.search.truthy then [(Cond.search, JsVal.str ("%" ++ q.search.toStr ++ "%"))] else []) ++
  (if q.services.truthy then [(Cond.anyOf "service", strArray (filterItems q.services))]
   else []) ++
  (if q.severities.truthy then [(Cond.anyOf "severity", strArray (filterItems q.severities))]
   else []) ++
  (if q.statuses.truthy then [(Cond.anyOf "status", strArray (filterItems q.statuses))]
   else [])

/-- The two columns of a record that are fixed at insert. -/
def Incident.key (r : Incident) : String × Nat := (r.id, r.created_at)

/-- The enumeration invariant of a record: its severity and its status are members
of their enumerations. -/
def EnumOk (r : Incident) : Prop :=
  includesStr severityValues r.severity = true ∧ includesStr statusValues r.status = true

/-- A table with one open incident. -/
def oneIncidentTable : List Incident :=
  [⟨"7", .str "API Timeout", .str "Backend", .str "SEV2", .str "OPEN", .null, .null, 100, 100⟩]

/-- A pool that accepts every statement. -/
def acceptingPool : Pool := fun _ => .rows [[("id", .text "7")]]

/-- A valid creation payload with an empty owner and a summary. -/
def emptyOwnerBody : JsObject :=
  [("title", .str "Login Failure"), ("service", .str "Auth"), ("severity", .str "SEV1"),
   ("status", .str "OPEN"), ("owner", .str ""), ("summary", .str "Users cannot log in"),
   ("id", .str "9")]

/-- An update payload that carries `id` and `created_at` next to a status. -/
def overwritingBody : JsObject :=
  [("id", .str "9"), ("created_at", .num 5), ("status", .str "RESOLVED")]

/-! ## Lemmas -/

theorem dropWhile_all_self {α : Type} (p : α → Bool) (l : List α)
    (h : (l.dropWhile p).all p = true) : l.dropWhile p = [] := by
  induction l with
  | nil => rfl
  | cons a t ih =>
    by_cases ha : p a = true
    · simp only [List.dropWhile_cons_of_pos ha] at h ⊢
      exact ih h
    · simp only [List.dropWhile_cons_of_neg ha] at h ⊢
      simp [ha] at h

/-- Trimming leaves nothing exactly when every character is white space. -/
theorem jsTrim_blank (cs : List Char) :
    ((jsTrim cs).length == 0) = cs.all isJsWhitespace := by
  unfold jsTrim
  rw [Bool.eq_iff_iff]
  simp only [List.length_reverse, beq_iff_eq, List.length_eq_zero, List.dropWhile_eq_nil_iff,
    List.mem_reverse, List.all_eq_true]
  constructor
  · intro h
    have h1 : (cs.dropWhile isJsWhitespace).all isJsWhitespace = true := by
      simpa [List.all_eq_true] using h
    have h2 := dropWhile_all_self _ _ h1
    exact List.dropWhile_eq_nil_iff.mp h2
  · intro h
    have h2 : cs.dropWhile isJsWhitespace = [] := List.dropWhile_eq_nil_iff.mpr h
    simp [h2]

theorem blankCheck_strOrAbsent (v : JsVal) (h : StrOrAbsent v) :
    blankCheck v = some (isBlankField v) := by
  rcases h with h | ⟨s, h⟩
  · subst h; rfl
  · subst h
    unfold blankCheck isBlankField JsVal.truthy
    by_cases he : s.data.isEmpty = true
    · simp only [he, Bool.not_true, Bool.not_false, if_true]
      have : s.data = [] := by simpa using he
      simp [this]
    · simp only [he, Bool.not_false, Bool.not_true]
      simp [jsTrim_blank]

theorem enumCheck_strOrAbsent (list : List String) (v : JsVal) (h : StrOrAbsent v)
    (hl : "" ∉ list) : enumCheck list v = notInEnum list v := by
  rcases h with h | ⟨s, h⟩
  · subst h; rfl
  · subst h
    unfold enumCheck notInEnum JsVal.truthy includesStr
    by_cases he : s.data.isEmpty = true
    · have h0 : s.data = [] := by simpa using he
      have hs : s = "" := by
        cases s; simp_all
      subst hs
      simp [hl]
    · simp [he]

theorem validateIncident_eq (body : JsObject)
    (ht : StrOrAbsent (getProp body "title")) (hs : StrOrAbsent (getProp body "service"))
    (hv : StrOrAbsent (getProp body "severity")) (hu : StrOrAbsent (getProp body "status")) :
    validateIncident body =
      ⟨body, if violations body = [] then MwOutcome.next
             else MwOutcome.responded ⟨400, RespBody.errors (violations body)⟩⟩ := by
  unfold validateIncident
  simp only [blankCheck_strOrAbsent _ ht, blankCheck_strOrAbsent _ hs,
    enumCheck_strOrAbsent severityValues _ hv (by decide),
    enumCheck_strOrAbsent statusValues _ hu (by decide)]
  unfold violations ruleTable
  cases isBlankField (getProp body "title") <;> cases isBlankField (getProp body "service") <;>
  cases notInEnum severityValues (getProp body "severity") <;>
  cases notInEnum statusValues (getProp body "status") <;> simp

theorem buildUpdate_ok (id : String) (body : JsObject) (he : EnumChecksPass body)
    (hne : presentFields body ≠ []) :
    buildUpdate id body =
      .ok ⟨expectedSets body, expectedValues id body, (presentFields body).length + 1⟩ := by
  obtain ⟨hsev, hst⟩ := he
  unfold buildUpdate expectedSets expectedValues
  unfold presentFields updatableFields at *
  cases h1 : (getProp body "title").isDefined <;>
  cases h2 : (getProp body "service").isDefined <;>
  cases h3 : (getProp body "severity").isDefined <;>
  cases h4 : (getProp body "status").isDefined <;>
  cases h5 : (getProp body "owner").isDefined <;>
  cases h6 : (getProp body "summary").isDefined <;>
  simp_all [UpdateBuild.push, List.enumFrom]

theorem applySet_expected (now : Nat) (id : String) (body : JsObject) (r : Incident) :
    applySet now (expectedValues id body) (expectedSets body) r = patched now body r := by
  unfold expectedSets expectedValues patched presentFields updatableFields
  cases h1 : (getProp body "title").isDefined <;>
  cases h2 : (getProp body "service").isDefined <;>
  cases h3 : (getProp body "severity").isDefined <;>
  cases h4 : (getProp body "status").isDefined <;>
  cases h5 : (getProp body "owner").isDefined <;>
  cases h6 : (getProp body "summary").isDefined <;>
  simp [h1, h2, h3, h4, h5, h6, List.enumFrom, applySet, Incident.assign, paramAt]

theorem paramAt_expected (id : String) (body : JsObject) :
    paramAt (expectedValues id body) ((presentFields body).length + 1) = JsVal.str id := by
  unfold paramAt expectedValues
  simp [List.getD_eq_getElem?_getD]

theorem updateIncident_of_error (pool : Pool) (id : String) (body : JsObject) (rows : List Row)
    (res : Response)
    (hex : pool (selectByIdStmt id) = Reply.rows rows) (hrows : rows ≠ [])
    (hb : buildUpdate id body = .error res) :
    updateIncident pool id body = ⟨res, [selectByIdStmt id]⟩ := by
  unfold updateIncident
  have : rows.length ≠ 0 := by simpa using hrows
  simp [hex, this, hb]

theorem updateIncident_of_ok (pool : Pool) (id : String) (body : JsObject) (rows : List Row)
    (b : UpdateBuild)
    (hex : pool (selectByIdStmt id) = Reply.rows rows) (hrows : rows ≠ [])
    (hb : buildUpdate id body = .ok b) :
    (updateIncident pool id body).issued =
      [selectByIdStmt id, ⟨.update b.updates b.paramCounter, b.values⟩] ∧
    (pool ⟨.update b.updates b.paramCounter, b.values⟩ = Reply.failed →
      (updateIncident pool id body).response = internalError) ∧
    (∀ rs, pool ⟨.update b.updates b.paramCounter, b.values⟩ = Reply.rows rs →
      (updateIncident pool id body).response = ⟨200, .row rs.head?⟩) := by
  unfold updateIncident
  have : rows.length ≠ 0 := by simpa using hrows
  simp only [hex, this, hb, if_false]
  cases hp : pool ⟨.update b.updates b.paramCounter, b.values⟩ <;> simp

theorem buildUpdate_bad_severity (id : String) (body : JsObject)
    (hd : (getProp body "severity").isDefined = true)
    (hi : includesStr severityValues (getProp body "severity") = false) :
    buildUpdate id body = .error ⟨400, .error "Invalid severity value"⟩ := by
  unfold buildUpdate
  simp [hd, hi]

theorem buildUpdate_bad_status (id : String) (body : JsObject)
    (hsev : (getProp body "severity").isDefined = true →
      includesStr severityValues (getProp body "severity") = true)
    (hd : (getProp body "status").isDefined = true)
    (hi : includesStr statusValues (getProp body "status") = false) :
    buildUpdate id body = .error ⟨400, .error "Invalid status value"⟩ := by
  unfold buildUpdate
  cases h3 : (getProp body "severity").isDefined <;> simp_all

theorem buildUpdate_no_fields (id : String) (body : JsObject)
    (hnone : presentFields body = []) :
    buildUpdate id body = .error ⟨400, .error "No fields to update"⟩ := by
  unfold buildUpdate
  unfold presentFields updatableFields at hnone
  cases h1 : (getProp body "title").isDefined <;>
  cases h2 : (getProp body "service").isDefined <;>
  cases h3 : (getProp body "severity").isDefined <;>
  cases h4 : (getProp body "status").isDefined <;>
  cases h5 : (getProp body "owner").isDefined <;>
  cases h6 : (getProp body "summary").isDefined <;>
  simp_all [UpdateBuild.push]

/-- Whenever the construction succeeds, the checks passed, some field was present and
the fragments are the expected ones. -/
theorem buildUpdate_ok_inv (id : String) (body : JsObject) (b : UpdateBuild)
    (hb : buildUpdate id body = .ok b) :
    EnumChecksPass body ∧ presentFields body ≠ [] ∧
    b = ⟨expectedSets body, expectedValues id body, (presentFields body).length + 1⟩ := by
  by_cases hsev : (getProp body "severity").isDefined = true →
      includesStr severityValues (getProp body "severity") = true
  · by_cases hst : (getProp body "status").isDefined = true →
        includesStr statusValues (getProp body "status") = true
    · by_cases hne : presentFields body = []
      · rw [buildUpdate_no_fields id body hne] at hb
        cases hb
      · have h := buildUpdate_ok id body ⟨hsev, hst⟩ hne
        rw [h] at hb
        injection hb with hb
        exact ⟨⟨hsev, hst⟩, hne, hb.symm⟩
    · have hd : (getProp body "status").isDefined = true := by
        by_contra hc; exact hst (fun h => absurd h hc)
      have hi : includesStr statusValues (getProp body "status") = false := by
        cases hx : includesStr statusValues (getProp body "status")
        · rfl
        · exact absurd (fun _ => hx) hst
      rw [buildUpdate_bad_status id body hsev hd hi] at hb
      cases hb
  · have hd : (getProp body "severity").isDefined = true := by
      by_contra hc; exact hsev (fun h => absurd h hc)
    have hi : includesStr severityValues (getProp body "severity") = false := by
      cases hx : includesStr severityValues (getProp body "severity")
      · rfl
      · exact absurd (fun _ => hx) hsev
    rw [buildUpdate_bad_severity id body hd hi] at hb
    cases hb

theorem expectedSets_ne_touch (body : JsObject) (hne : presentFields body ≠ []) :
    expectedSets body ≠ [SetItem.touch] := by
  unfold expectedSets
  intro h
  have hl := congrArg List.length h
  simp at hl
  exact hne hl

/-- Every statement the handler sends is the existence check or an update built by
`buildUpdate`. -/
theorem updateIncident_issued (pool : Pool) (id : String) (body : JsObject) (stmt : Stmt)
    (hs : stmt ∈ (updateIncident pool id body).issued) :
    stmt = selectByIdStmt id ∨
    ∃ b, buildUpdate id body = .ok b ∧ stmt = ⟨.update b.updates b.paramCounter, b.values⟩ := by
  unfold updateIncident at hs
  cases hp : pool (selectByIdStmt id) with
  | failed => simp [hp] at hs; exact Or.inl hs
  | rows rows =>
    simp only [hp] at hs
    by_cases hl : rows.length = 0
    · simp [hl] at hs; exact Or.inl hs
    · simp only [hl, if_false] at hs
      cases hb : buildUpdate id body with
      | error res => simp [hb] at hs; exact Or.inl hs
      | ok b =>
        simp only [hb] at hs
        cases hq : pool ⟨.update b.updates b.paramCounter, b.values⟩ <;>
          simp [hq] at hs <;>
          rcases hs with hs | hs
        · exact Or.inl hs
        · exact Or.inr ⟨b, rfl, hs⟩
        · exact Or.inl hs
        · exact Or.inr ⟨b, rfl, hs⟩

theorem execStmt_select (now : Nat) (table : List Incident) (id : String) :
    execStmt now table (selectByIdStmt id) = table := rfl

theorem presentFields_nil_of_absent (body : JsObject)
    (h : ∀ f ∈ updatableFields, getProp body f = JsVal.undefined) :
    presentFields body = [] := by
  unfold presentFields
  rw [List.filter_eq_nil_iff]
  intro f hf
  rw [h f hf]
  simp [JsVal.isDefined]

theorem buildList_inv (q : ListQuery) (p : ListPlan) (h : buildList q = some p) :
    ∃ services severities statuses upper,
      filterList q.services = some services ∧ filterList q.severities = some severities ∧
      filterList q.statuses = some statuses ∧
      toUpperCase (q.sortOrder.orElse "DESC") = some upper ∧
      p = { page := parseIntOr q.page 1, limit := parseIntOr q.limit 10,
            offset := (parseIntOr q.page 1 - 1) * parseIntOr q.limit 10,
            whereConditions :=
              (buildWhere (q.search.orElse "") services severities statuses).whereConditions,
            queryParams :=
              (buildWhere (q.search.orElse "") services severities statuses).queryParams,
            paramCounter :=
              (buildWhere (q.search.orElse "") services severities statuses).paramCounter,
            safeSortBy := safeSortBy (q.sortBy.orElse "created_at"),
            safeSortOrder := if upper = "ASC" then "ASC" else "DESC" } := by
  unfold buildList at h
  cases h1 : filterList q.services with
  | none => simp [h1] at h
  | some services =>
    cases h2 : filterList q.severities with
    | none => simp [h1, h2] at h
    | some severities =>
      cases h3 : filterList q.statuses with
      | none => simp [h1, h2, h3] at h
      | some statuses =>
        cases h4 : toUpperCase (q.sortOrder.orElse "DESC") with
        | none => simp [h1, h2, h3, h4] at h
        | some upper =>
          simp only [h1, h2, h3, h4, Option.some.injEq] at h
          exact ⟨services, severities, statuses, upper, rfl, rfl, rfl, rfl, h.symm⟩

theorem filterList_isSome (v : QVal) (h : v.isArr = false) : ∃ l, filterList v = some l := by
  cases v with
  | absent => exact ⟨_, rfl⟩
  | str s => simp only [filterList]; split <;> exact ⟨_, rfl⟩
  | arr items => simp [QVal.isArr] at h

theorem toUpperCase_isSome (v : QVal) (dflt : String) (h : v.isArr = false) :
    ∃ u, toUpperCase (v.orElse dflt) = some u := by
  cases v with
  | absent => exact ⟨_, rfl⟩
  | str s =>
    unfold QVal.orElse
    split <;> exact ⟨_, rfl⟩
  | arr items => simp [QVal.isArr] at h

theorem buildList_plain (q : ListQuery) (h : q.Plain) : ∃ p, buildList q = some p := by
  obtain ⟨h1, h2, h3, h4⟩ := h
  obtain ⟨a, ha⟩ := filterList_isSome _ h1
  obtain ⟨b, hb⟩ := filterList_isSome _ h2
  obtain ⟨c, hc⟩ := filterList_isSome _ h3
  obtain ⟨u, hu⟩ := toUpperCase_isSome _ "DESC" h4
  unfold buildList
  simp only [ha, hb, hc, hu]
  exact ⟨_, rfl⟩

theorem getIncidents_ok (pool : Pool) (q : ListQuery) (p : ListPlan) (row0 : Row)
    (rest rows : List Row) (hp : buildList q = some p)
    (hc : pool p.countStmt = Reply.rows (row0 :: rest))
    (hd : pool p.dataStmt = Reply.rows rows) :
    getIncidents pool q =
      ⟨⟨200, RespBody.list rows
          { page := p.page, limit := p.limit, totalCount := parseIntDb (row0.get "count"),
            totalPages := totalPages (parseIntDb (row0.get "count")) p.limit }⟩,
       [p.countStmt, p.dataStmt]⟩ := by
  unfold getIncidents
  simp [hp, hc, hd]

theorem safeSortBy_fallback (v : QVal) (hs : ∀ s, v = QVal.str s → s ∉ allowedSortColumns) :
    safeSortBy (v.orElse "created_at") = "created_at" := by
  unfold QVal.orElse
  split
  · cases v with
    | absent => rfl
    | str s =>
      have := hs s rfl
      simp [safeSortBy, this]
    | arr items => rfl
  · rfl

theorem orElse_falsy (v : QVal) (dflt : String) (h : v.truthy = false) :
    v.orElse dflt = QVal.str dflt := by
  simp [QVal.orElse, h]

theorem splitComma_ne_nil (cs : List Char) : splitComma cs ≠ [] := by
  induction cs with
  | nil => simp [splitComma]
  | cons c cs ih =>
    unfold splitComma
    split
    · simp
    · split <;> simp

theorem anyCell_strArray (cell : JsVal) (items : List String) :
    anyCell cell (items.map JsVal.str) = true ↔ ∃ v, cell = JsVal.str v ∧ v ∈ items := by
  cases cell <;> simp [anyCell]

theorem whereHolds_buildWhere (search : QVal) (services severities statuses : List String)
    (r : Incident) :
    whereHolds (buildWhere search services severities statuses).whereConditions
        (buildWhere search services severities statuses).queryParams r = true ↔
      ((search.truthy = false ∨
          ilikeCell r.title ("%" ++ search.toStr ++ "%") = true ∨
          ilikeCell r.summary ("%" ++ search.toStr ++ "%") = true) ∧
       (services = [] ∨ anyCell r.service (services.map JsVal.str) = true) ∧
       (severities = [] ∨ anyCell r.severity (severities.map JsVal.str) = true) ∧
       (statuses = [] ∨ anyCell r.status (statuses.map JsVal.str) = true)) := by
  cases hs : search.truthy <;>
  rcases services with _ | ⟨a, as⟩ <;>
  rcases severities with _ | ⟨b, bs⟩ <;>
  rcases statuses with _ | ⟨c, cs⟩ <;>
  simp [buildWhere, WhereBuild.push, whereHolds, Cond.holds, paramAt, Incident.cell, hs, strArray]

theorem str_truthy_false_iff (s : String) : (QVal.str s).truthy = false ↔ s = "" := by
  cases s with
  | mk data =>
    cases data <;> simp [QVal.truthy, String.ext_iff]

theorem filterList_admits (v : QVal) (l : List String) (cell : JsVal)
    (h : filterList v = some l) :
    (l = [] ∨ anyCell cell (l.map JsVal.str) = true) ↔ filterAdmits v cell := by
  cases v with
  | absent =>
    simp only [filterList, Option.some.injEq] at h
    simp [filterAdmits, ← h]
  | str s =>
    simp only [filterList] at h
    by_cases ht : (QVal.str s).truthy = true
    · simp only [ht, if_true, Option.some.injEq] at h
      have hne : s ≠ "" := by
        intro hs
        have := (str_truthy_false_iff s).mpr hs
        rw [ht] at this
        cases this
      have hl : l ≠ [] := by
        rw [← h]
        simp [splitComma_ne_nil]
      simp only [filterAdmits, hne, hl, false_or, anyCell_strArray, commaList, h]
    · have hf : (QVal.str s).truthy = false := by simpa using ht
      simp only [hf, Bool.false_eq_true, if_false, Option.some.injEq] at h
      have hs := (str_truthy_false_iff s).mp hf
      simp [filterAdmits, hs, ← h]
  | arr items => simp [filterList] at h

theorem searchAdmits_orElse (search : QVal) (r : Incident) :
    ((search.orElse "").truthy = false ∨
      ilikeCell r.title ("%" ++ (search.orElse "").toStr ++ "%") = true ∨
      ilikeCell r.summary ("%" ++ (search.orElse "").toStr ++ "%") = true) ↔
    searchAdmits search r := by
  unfold searchAdmits QVal.orElse
  cases h : search.truthy
  · simp [QVal.truthy]
  · simp [h]

theorem whereHolds_plan (q : ListQuery) (p : ListPlan) (hp : buildList q = some p)
    (r : Incident) :
    whereHolds p.whereConditions p.queryParams r = true ↔
      (searchAdmits q.search r ∧ filterAdmits q.services r.service ∧
       filterAdmits q.severities r.severity ∧ filterAdmits q.statuses r.status) := by
  obtain ⟨services, severities, statuses, upper, h1, h2, h3, _, hpe⟩ := buildList_inv q p hp
  rw [hpe]
  simp only []
  rw [whereHolds_buildWhere, searchAdmits_orElse, filterList_admits _ _ _ h1,
    filterList_admits _ _ _ h2, filterList_admits _ _ _ h3]

theorem matchAnyRun_iff (f : List Char → Bool) (t : List Char) :
    matchAnyRun f t = true ↔ ∃ s, s <:+ t ∧ f s = true := by
  induction t with
  | nil => simp [matchAnyRun]
  | cons c cs ih =>
    simp only [matchAnyRun, Bool.or_eq_true, ih]
    constructor
    · rintro (h | ⟨s, hs, hf⟩)
      · exact ⟨c :: cs, List.suffix_refl _, h⟩
      · exact ⟨s, hs.trans (List.suffix_cons c cs), hf⟩
    · rintro ⟨s, hs, hf⟩
      rcases List.suffix_cons_iff.mp hs with h | h
      · left; rw [← h]; exact hf
      · right; exact ⟨s, h, hf⟩

theorem likeTokens_percent (cs : List Char) :
    likeTokens ('%' :: cs) = LikeTok.anyRun :: likeTokens cs := by
  cases cs <;> simp [likeTokens]

theorem likeTokens_lit (c : Char) (cs : List Char) (h : isLikeMeta c = false) :
    likeTokens (c :: cs) = LikeTok.lit c :: likeTokens cs := by
  simp only [isLikeMeta, Bool.or_eq_false_iff, decide_eq_false_iff_not] at h
  obtain ⟨⟨h1, h2⟩, h3⟩ := h
  cases cs <;> simp [likeTokens, h1, h2, h3]

theorem matchTokens_literal (q t : List Char) :
    matchTokens (q.map LikeTok.lit ++ [LikeTok.anyRun]) t = true ↔ q <+: t := by
  induction q generalizing t with
  | nil =>
    simp only [List.map_nil, List.nil_append, matchTokens, List.nil_prefix, iff_true]
    rw [matchAnyRun_iff]
    exact ⟨[], List.nil_suffix, rfl⟩
  | cons c q ih =>
    cases t with
    | nil => simp [matchTokens]
    | cons d t =>
      simp only [List.map_cons, List.cons_append, matchTokens, Bool.and_eq_true,
        decide_eq_true_eq, List.cons_prefix_cons]
      exact and_congr_right (fun _ => ih t)

theorem likeMatch_contains (q t : List Char) (hq : ∀ c ∈ q, isLikeMeta c = false) :
    likeMatch ('%' :: (q ++ ['%'])) t = true ↔ q <:+: t := by
  have htok : likeTokens (q ++ ['%']) = q.map LikeTok.lit ++ [LikeTok.anyRun] := by
    induction q with
    | nil => simp [likeTokens]
    | cons c q ih =>
      rw [List.cons_append, likeTokens_lit c _ (hq c (List.mem_cons_self _ _)),
        ih (fun x hx => hq x (List.mem_cons_of_mem _ hx))]
      rfl
  unfold likeMatch
  rw [likeTokens_percent, htok]
  simp only [matchTokens]
  rw [matchAnyRun_iff, List.infix_iff_prefix_suffix]
  constructor
  · rintro ⟨s, hs, hf⟩
    exact ⟨s, (matchTokens_literal q s).mp hf, hs⟩
  · rintro ⟨s, hp, hs⟩
    exact ⟨s, hs, (matchTokens_literal q s).mpr hp⟩

theorem toLower_not_meta (c : Char) (h : isLikeMeta c = false) :
    isLikeMeta c.toLower = false := by
  simp only [Char.toLower]
  split
  · rename_i hu
    generalize c.toNat = n at hu
    obtain ⟨h1, h2⟩ := hu
    interval_cases n <;> rfl
  · exact h

theorem foldCase_not_meta (cs : List Char) (h : cs.any isLikeMeta = false) :
    ∀ c ∈ foldCase cs, isLikeMeta c = false := by
  intro c hc
  simp only [foldCase, List.mem_map] at hc
  obtain ⟨d, hd, rfl⟩ := hc
  apply toLower_not_meta
  simp only [List.any_eq_false] at h
  simpa using h d hd

theorem ilikeCell_contains (cell : JsVal) (s : String) (h : hasLikeMeta s = false) :
    ilikeCell cell ("%" ++ s ++ "%") = true ↔ containsFold cell s := by
  unfold containsFold
  cases cell with
  | str t =>
    simp only [ilikeCell, JsVal.str.injEq, exists_eq_left']
    have hp : foldCase ("%" ++ s ++ "%").data = '%' :: (foldCase s.data ++ ['%']) := by
      simp [foldCase]
    rw [hp, likeMatch_contains _ _ (foldCase_not_meta _ h)]
  | _ => simp [ilikeCell]

theorem buildWhere_search (search : QVal) (services severities statuses : List String)
    (h : search.truthy = true) :
    (∃ rest, (buildWhere search services severities statuses).whereConditions =
        Cond.search 1 :: rest) ∧
    paramAt (buildWhere search services severities statuses).queryParams 1 =
      JsVal.str ("%" ++ search.toStr ++ "%") := by
  rcases services with _ | ⟨a, as⟩ <;>
  rcases severities with _ | ⟨b, bs⟩ <;>
  rcases statuses with _ | ⟨c, cs⟩ <;>
  simp [buildWhere, WhereBuild.push, paramAt, h]

theorem buildWhere_no_search (search : QVal) (services severities statuses : List String)
    (h : search.truthy = false) (n : Nat) :
    Cond.search n ∉ (buildWhere search services severities statuses).whereConditions := by
  rcases services with _ | ⟨a, as⟩ <;>
  rcases severities with _ | ⟨b, bs⟩ <;>
  rcases statuses with _ | ⟨c, cs⟩ <;>
  simp [buildWhere, WhereBuild.push, h]

theorem orElse_truthy (v : QVal) (dflt : String) (h : v.truthy = true) : v.orElse dflt = v := by
  simp [QVal.orElse, h]

theorem str_truthy_of_ne (s : String) (h : s ≠ "") : (QVal.str s).truthy = true := by
  cases hs : (QVal.str s).truthy
  · exact absurd ((str_truthy_false_iff s).mp hs) h
  · rfl

theorem ceil_div_closed (t l : Int) (hl : 1 ≤ l) :
    Int.ceil ((t : ℚ) / (l : ℚ)) = (t + l - 1) / l := by
  have hlpos : (0 : ℚ) < (l : ℚ) := by exact_mod_cast (by omega : (0 : Int) < l)
  have h1 : (t + l - 1) / l * l ≤ t + l - 1 := Int.ediv_mul_le _ (by omega)
  have h2 : t + l - 1 < ((t + l - 1) / l + 1) * l :=
    Int.lt_ediv_add_one_mul_self _ (by omega)
  rw [Int.ceil_eq_iff]
  constructor
  · rw [lt_div_iff₀ hlpos]
    have : ((t + l - 1) / l - 1) * l < t := by nlinarith
    exact_mod_cast this
  · rw [div_le_iff₀ hlpos]
    have : t ≤ (t + l - 1) / l * l := by nlinarith
    exact_mod_cast this

theorem buildWhere_counter (search : QVal) (services severities statuses : List String) :
    (buildWhere search services severities statuses).paramCounter =
      (buildWhere search services severities statuses).queryParams.length + 1 := by
  cases hs : search.truthy <;>
  rcases services with _ | ⟨a, as⟩ <;>
  rcases severities with _ | ⟨b, bs⟩ <;>
  rcases statuses with _ | ⟨c, cs⟩ <;>
  simp [buildWhere, WhereBuild.push, hs]

theorem plan_counter (q : ListQuery) (p : ListPlan) (hp : buildList q = some p) :
    p.paramCounter = p.queryParams.length + 1 ∧ p.offset = (p.page - 1) * p.limit ∧
    p.page = parseIntOr q.page 1 ∧ p.limit = parseIntOr q.limit 10 := by
  obtain ⟨services, severities, statuses, upper, _, _, _, _, hpe⟩ := buildList_inv q p hp
  rw [hpe]
  exact ⟨buildWhere_counter _ _ _ _, rfl, rfl, rfl⟩

theorem getD_append_length (l rest : List JsVal) (k : Nat) (d : JsVal) :
    (l ++ rest).getD (l.length + k) d = rest.getD k d := by
  induction l with
  | nil => simp
  | cons x xs ih => simpa [Nat.succ_add] using ih

theorem paramAt_append_fst (l : List JsVal) (a b : JsVal) :
    paramAt (l ++ [a, b]) (l.length + 1) = a := by
  unfold paramAt
  exact getD_append_length l [a, b] 0 JsVal.null

theorem paramAt_append_snd (l : List JsVal) (a b : JsVal) :
    paramAt (l ++ [a, b]) (l.length + 1 + 1) = b := by
  unfold paramAt
  exact getD_append_length l [a, b] 1 JsVal.null

theorem limitOffset_length {α : Type} (limit offset : Nat) (ordered : List α) :
    (limitOffset limit offset ordered).length = min limit (ordered.length - offset) := by
  simp [limitOffset]

theorem limitOffset_get {α : Type} (limit offset : Nat) (ordered : List α) (i : Nat)
    (hi : i < limit) :
    (limitOffset limit offset ordered)[i]? = ordered[offset + i]? := by
  simp [limitOffset, List.getElem?_take, hi]

theorem filterList_nil_iff (v : QVal) (l : List String) (h : filterList v = some l) :
    l = [] ↔ v.truthy = false := by
  cases v with
  | absent =>
    simp only [filterList, Option.some.injEq] at h
    simp [← h, QVal.truthy]
  | str s =>
    simp only [filterList] at h
    cases ht : (QVal.str s).truthy
    · simp only [ht, Bool.false_eq_true, if_false, Option.some.injEq] at h
      simp [← h]
    · simp only [ht, if_true, Option.some.injEq] at h
      simp [← h, splitComma_ne_nil]
  | arr items => simp [filterList] at h

theorem buildWhere_shape (s1 s2 : QVal) (a1 a2 b1 b2 c1 c2 : List String)
    (hs : s1.truthy = s2.truthy) (ha : a1 = [] ↔ a2 = []) (hb : b1 = [] ↔ b2 = [])
    (hc : c1 = [] ↔ c2 = []) :
    (buildWhere s1 a1 b1 c1).whereConditions = (buildWhere s2 a2 b2 c2).whereConditions ∧
    (buildWhere s1 a1 b1 c1).paramCounter = (buildWhere s2 a2 b2 c2).paramCounter := by
  cases h1 : s1.truthy <;> rw [h1] at hs <;>
  rcases a1 with _ | ⟨x1, a1⟩ <;> rcases a2 with _ | ⟨x2, a2⟩ <;> simp at ha <;>
  rcases b1 with _ | ⟨y1, b1⟩ <;> rcases b2 with _ | ⟨y2, b2⟩ <;> simp at hb <;>
  rcases c1 with _ | ⟨z1, c1⟩ <;> rcases c2 with _ | ⟨z2, c2⟩ <;> simp at hc <;>
  simp [buildWhere, WhereBuild.push, h1, ← hs]

theorem buildWhere_conds (search : QVal) (services severities statuses : List String) :
    ∀ c ∈ (buildWhere search services severities statuses).whereConditions,
      (∃ n, c = Cond.search n) ∨
      (∃ column n, c = Cond.anyOf column n ∧ column ∈ ["service", "severity", "status"]) := by
  cases hs : search.truthy <;>
  rcases services with _ | ⟨a, as⟩ <;>
  rcases severities with _ | ⟨b, bs⟩ <;>
  rcases statuses with _ | ⟨c, cs⟩ <;>
  simp [buildWhere, WhereBuild.push, hs]

theorem safeSortBy_allowed (v : QVal) : safeSortBy v ∈ allowedSortColumns := by
  cases v with
  | str s =>
    simp only [safeSortBy]
    split
    · rename_i h
      simpa using h
    · decide
  | absent => decide
  | arr items => simp [safeSortBy, allowedSortColumns]

theorem orElse_truthy_eq (v : QVal) : (v.orElse "").truthy = v.truthy := by
  unfold QVal.orElse
  cases h : v.truthy
  · simp [QVal.truthy]
  · simp [h]

theorem JsNum.zero_def : (0 : JsNum) = JsNum.fin 0 := rfl

theorem JsNum.one_def : (1 : JsNum) = JsNum.fin 1 := rfl

theorem JsNum.ten_def : (10 : JsNum) = JsNum.fin 10 := rfl

theorem JsNum.truthy_iff (x : JsNum) : x.truthy = true ↔ x ≠ 0 ∧ x ≠ JsNum.nan := by
  cases x <;> simp [JsNum.truthy, JsNum.zero_def]

theorem JsNum.falsy_iff (x : JsNum) : x.truthy = false ↔ x = 0 ∨ x = JsNum.nan := by
  cases x <;> simp [JsNum.truthy, JsNum.zero_def]

theorem truthy_false_iff (v : JsVal) :
    v.truthy = false ↔
      (v = JsVal.undefined ∨ v = JsVal.null ∨ v = JsVal.bool false ∨ v = JsVal.num 0 ∨
       v = JsVal.num JsNum.nan ∨ v = JsVal.str "") := by
  cases v with
  | undefined => simp [JsVal.truthy]
  | null => simp [JsVal.truthy]
  | bool b => cases b <;> simp [JsVal.truthy]
  | num n => simp [JsVal.truthy, JsNum.falsy_iff]
  | str s =>
    cases s with
    | mk data => cases data <;> simp [JsVal.truthy, String.ext_iff]
  | arr items => simp [JsVal.truthy]
  | obj fields => simp [JsVal.truthy]

theorem orNull_falsy (v : JsVal) (h : v.truthy = false) : orNull v = JsVal.null := by
  simp [orNull, h]

theorem orNull_truthy (v : JsVal) (h : v.truthy = true) : orNull v = v := by
  simp [orNull, h]

theorem safeSortBy_of_allowed (s : String) (h : s ∈ allowedSortColumns) :
    safeSortBy ((QVal.str s).orElse "created_at") = s := by
  have hc : allowedSortColumns.contains s = true := by simpa using h
  unfold QVal.orElse
  split
  · simp only [safeSortBy, hc, if_true]
  · rename_i hf
    have hf2 : (QVal.str s).truthy = false := by simpa using hf
    have hs := (str_truthy_false_iff s).mp hf2
    subst hs
    revert h
    decide

theorem toUpperCase_str_orElse (s : String) :
    (toUpperCase ((QVal.str s).orElse "DESC") = some "ASC") ↔
      toUpperCase (QVal.str s) = some "ASC" := by
  unfold QVal.orElse
  split
  · rfl
  · rename_i hf
    have hf2 : (QVal.str s).truthy = false := by simpa using hf
    have hs := (str_truthy_false_iff s).mp hf2
    subst hs
    decide

theorem operand_mem (c o : String) (hc : c ∈ allowedSortColumns) (ho : o = "ASC" ∨ o = "DESC") :
    c ++ " " ++ o ∈ orderByOperands := by
  simp only [allowedSortColumns, List.mem_cons, List.mem_singleton, List.not_mem_nil,
    or_false] at hc
  rcases hc with h | h | h | h | h | h <;> rcases ho with h2 | h2 <;> subst h <;> subst h2 <;>
    decide

theorem parseIntOr_truthy (v : QVal) (dflt : JsNum) (hd : dflt.truthy = true) :
    (parseIntOr v dflt).truthy = true := by
  unfold parseIntOr
  simp only []
  split
  · assumption
  · exact hd

theorem parseIntOr_default (v : QVal) (dflt : JsNum)
    (h : parseIntChars v.toStr.data = JsNum.nan ∨ parseIntChars v.toStr.data = 0) :
    parseIntOr v dflt = dflt := by
  unfold parseIntOr
  rcases h with h | h <;> simp [h, JsNum.truthy, JsNum.zero_def]

theorem parseIntOr_number (v : QVal) (dflt n : JsNum) (h : parseIntChars v.toStr.data = n)
    (hn : n ≠ 0) (hn2 : n ≠ JsNum.nan) : parseIntOr v dflt = n := by
  unfold parseIntOr
  simp [h, (JsNum.truthy_iff n).mpr ⟨hn, hn2⟩]

theorem filterItems_of_some (v : QVal) (l : List String) (h : filterList v = some l) :
    filterItems v = l := by
  simp [filterItems, h]

theorem buildWhere_table (q : ListQuery) (services severities statuses : List String)
    (h1 : filterList q.services = some services) (h2 : filterList q.severities = some severities)
    (h3 : filterList q.statuses = some statuses) :
    buildWhere (q.search.orElse "") services severities statuses =
      ⟨((conditionTable q).enumFrom 1).map (fun x => x.2.1 x.1),
       (conditionTable q).map (fun x => x.2),
       (conditionTable q).length + 1⟩ := by
  have e1 := filterList_nil_iff _ _ h1
  have e2 := filterList_nil_iff _ _ h2
  have e3 := filterList_nil_iff _ _ h3
  unfold conditionTable
  rw [filterItems_of_some _ _ h1, filterItems_of_some _ _ h2, filterItems_of_some _ _ h3]
  have hs : (q.search.orElse "").truthy = q.search.truthy := orElse_truthy_eq _
  cases hq : q.search.truthy
  · rw [hq] at hs
    cases ha : q.services.truthy <;> rw [ha] at e1 <;>
    cases hb : q.severities.truthy <;> rw [hb] at e2 <;>
    cases hc : q.statuses.truthy <;> rw [hc] at e3 <;>
    simp at e1 e2 e3 <;>
    simp [buildWhere, WhereBuild.push, hs, e1, e2, e3, List.enumFrom, List.length_pos]
  · rw [orElse_truthy _ _ hq]
    cases ha : q.services.truthy <;> rw [ha] at e1 <;>
    cases hb : q.severities.truthy <;> rw [hb] at e2 <;>
    cases hc : q.statuses.truthy <;> rw [hc] at e3 <;>
    simp at e1 e2 e3 <;>
    simp [buildWhere, WhereBuild.push, hq, e1, e2, e3, List.enumFrom, List.length_pos]

theorem getElem?_enumFrom_map {α β : Type} (l : List α) (n k : Nat) (f : Nat × α → β) :
    ((l.enumFrom n).map f)[k]? = (l[k]?).map (fun a => f (n + k, a)) := by
  rw [List.getElem?_map, List.getElem?_enumFrom]
  cases l[k]? <;> rfl

theorem paramAt_map_append {α : Type} (l : List α) (g : α → JsVal) (rest : List JsVal)
    (k : Nat) (a : α) (h : l[k]? = some a) :
    paramAt (l.map g ++ rest) (k + 1) = g a := by
  unfold paramAt
  have hk : k < l.length := by
    rcases Nat.lt_or_ge k l.length with hlt | hge
    · exact hlt
    · rw [List.getElem?_eq_none hge] at h
      cases h
  have hk2 : k < (l.map g ++ rest).length := by simp; omega
  simp only [Nat.add_sub_cancel, List.getD_eq_getElem?_getD]
  rw [List.getElem?_append_left (by simpa using hk), List.getElem?_map, h]
  rfl

theorem setParams_enum (l : List String) (n : Nat) :
    ((l.enumFrom n).map (fun x => SetItem.bind x.2 x.1) ++ [SetItem.touch]).filterMap
        SetItem.param? = List.range' n l.length := by
  induction l generalizing n with
  | nil => simp [SetItem.param?]
  | cons a t ih =>
    simp only [List.enumFrom_cons, List.map_cons, List.cons_append, List.length_cons]
    rw [List.filterMap_cons_some (by rfl : SetItem.param? (SetItem.bind a n) = some n), ih (n + 1)]
    rfl

theorem condParams_table (q : ListQuery) :
    (((conditionTable q).enumFrom 1).map (fun x => x.2.1 x.1)).map Cond.param =
      List.range' 1 (conditionTable q).length ∧
    (conditionTable q).length ≤ 4 := by
  unfold conditionTable
  cases q.search.truthy <;> cases q.services.truthy <;> cases q.severities.truthy <;>
  cases q.statuses.truthy <;> simp [List.enumFrom, Cond.param, List.range', List.range'_succ]

theorem presentFields_sublist (body : JsObject) :
    (presentFields body).Sublist updatableFields :=
  List.filter_sublist _

theorem presentFields_length_le (body : JsObject) : (presentFields body).length ≤ 6 :=
  (presentFields_sublist body).length_le

theorem expectedSets_getElem? (body : JsObject) (i : Nat) (f : String)
    (h : (presentFields body)[i]? = some f) :
    (expectedSets body)[i]? = some (SetItem.bind f (i + 1)) := by
  unfold expectedSets
  have hk : i < (presentFields body).length := by
    rcases Nat.lt_or_ge i (presentFields body).length with hlt | hge
    · exact hlt
    · rw [List.getElem?_eq_none hge] at h
      cases h
  rw [List.getElem?_append_left (by simpa using hk), getElem?_enumFrom_map, h]
  simp [Nat.add_comm]

theorem expectedSets_touch (body : JsObject) :
    (expectedSets body)[(presentFields body).length]? = some SetItem.touch := by
  unfold expectedSets
  rw [List.getElem?_append_right (by simp)]
  simp

theorem expectedValues_length (id : String) (body : JsObject) :
    (expectedValues id body).length = (presentFields body).length + 1 := by
  simp [expectedValues]

/-- An assignment of the expected `SET` list names a present field, at the position
of its placeholder, and that placeholder holds the payload's value of the field. -/
theorem mem_expectedSets (id : String) (body : JsObject) (f : String) (m : Nat)
    (h : SetItem.bind f m ∈ expectedSets body) :
    f ∈ presentFields body ∧ paramAt (expectedValues id body) m = getProp body f := by
  unfold expectedSets at h
  simp only [List.mem_append, List.mem_map, List.mem_singleton, Prod.exists] at h
  rcases h with ⟨i, a, hmem, heq⟩ | h
  · injection heq with h1 h2
    subst h1; subst h2
    have hle := List.le_fst_of_mem_enumFrom hmem
    have hget := List.mk_mem_enumFrom_iff_le_and_getElem?_sub.mp hmem
    have hi : i = (i - 1) + 1 := by simp at hle; omega
    refine ⟨List.getElem?_mem hget.2, ?_⟩
    rw [hi]
    exact paramAt_map_append _ _ _ _ _ hget.2
  · cases h

theorem items_expectedSets (body : JsObject) (item : SetItem) (h : item ∈ expectedSets body) :
    item = SetItem.touch ∨ ∃ f m, item = SetItem.bind f m ∧ f ∈ updatableFields := by
  unfold expectedSets at h
  simp only [List.mem_append, List.mem_map, List.mem_singleton, Prod.exists] at h
  rcases h with ⟨i, a, hmem, heq⟩ | h
  · right
    exact ⟨a, i, heq.symm,
      (presentFields_sublist body).subset (List.snd_mem_of_mem_enumFrom hmem)⟩
  · left; exact h

theorem validateIncident_next (body : JsObject)
    (h : (validateIncident body).outcome = MwOutcome.next) :
    (validateIncident body).body = body ∧
    includesStr severityValues (getProp body "severity") = true ∧
    includesStr statusValues (getProp body "status") = true := by
  unfold validateIncident at h ⊢
  cases h1 : blankCheck (getProp body "title") with
  | none => simp [h1] at h
  | some tb =>
    cases h2 : blankCheck (getProp body "service") with
    | none => simp [h1, h2] at h
    | some sb =>
      simp only [h1, h2] at h ⊢
      cases h3 : enumCheck severityValues (getProp body "severity") <;>
      cases h4 : enumCheck statusValues (getProp body "status") <;>
      cases tb <;> cases sb <;> simp [h3, h4] at h
      refine ⟨by simp [h3, h4], ?_, ?_⟩
      · simp only [enumCheck, Bool.or_eq_false_iff, Bool.not_eq_false'] at h3
        exact h3.2
      · simp only [enumCheck, Bool.or_eq_false_iff, Bool.not_eq_false'] at h4
        exact h4.2

theorem validateIncident_blank (body : JsObject) (field : String) (s : String)
    (hf : field = "title" ∨ field = "service") (hs : getProp body field = JsVal.str s)
    (hb : s.data.all isJsWhitespace = true) :
    (validateIncident body).outcome ≠ MwOutcome.next := by
  have hbc : blankCheck (getProp body field) = some true := by
    rw [hs, blankCheck_strOrAbsent _ (Or.inr ⟨s, rfl⟩)]
    simp [isBlankField, hb]
  unfold validateIncident
  rcases hf with hf | hf <;> subst hf
  · simp only [hbc]
    cases h2 : blankCheck (getProp body "service") with
    | none => simp [h2]
    | some sb =>
      simp only [h2]
      cases sb <;> cases enumCheck severityValues (getProp body "severity") <;>
      cases enumCheck statusValues (getProp body "status") <;> simp
  · cases h1 : blankCheck (getProp body "title") with
    | none => simp [h1]
    | some tb =>
      simp only [h1, hbc]
      cases tb <;> cases enumCheck severityValues (getProp body "severity") <;>
      cases enumCheck statusValues (getProp body "status") <;> simp

theorem mem_presentFields (body : JsObject) (f : String) (hf : f ∈ updatableFields)
    (hd : (getProp body f).isDefined = true) : f ∈ presentFields body := by
  unfold presentFields
  exact List.mem_filter.mpr ⟨hf, hd⟩

theorem patched_key (now : Nat) (body : JsObject) (r : Incident) :
    (patched now body r).key = r.key := rfl

theorem execUpdate_expected (now : Nat) (id : String) (body : JsObject)
    (table : List Incident) :
    execUpdate now (expectedSets body) ((presentFields body).length + 1)
        (expectedValues id body) table =
      table.map (fun r => if r.id = id then patched now body r else r) := by
  unfold execUpdate
  simp only [paramAt_expected, applySet_expected]

/-- What the database makes of a statement sent by `updateIncident`: nothing, or the
partial update of the record with the path id. -/
theorem exec_update_stmt (env : Env) (id : String) (body : JsObject) (table : List Incident)
    (stmt : Stmt) (hs : stmt ∈ (updateIncident env.pool id body).issued) :
    env.exec table stmt = table ∨
    (EnumChecksPass body ∧
      env.exec table stmt =
        table.map (fun r => if r.id = id then patched env.now body r else r)) := by
  rcases updateIncident_issued env.pool id body stmt hs with h | ⟨b, hb, h⟩
  · left
    subst h
    unfold Env.exec
    cases env.pool (selectByIdStmt id) <;> rfl
  · obtain ⟨he, _, hbe⟩ := buildUpdate_ok_inv id body b hb
    subst h
    unfold Env.exec
    cases env.pool ⟨Sql.update b.updates b.paramCounter, b.values⟩ with
    | failed => left; rfl
    | rows rs =>
      right
      refine ⟨he, ?_⟩
      rw [hbe]
      exact execUpdate_expected env.now id body table

/-- What the database makes of a statement sent by the creation route: nothing, or
the insertion of a record built from the validated payload. -/
theorem exec_create_stmt (env : Env) (body : JsObject) (table : List Incident)
    (stmt : Stmt) (hs : stmt ∈ (postIncident env.pool body).issued) :
    stmt = ⟨Sql.insertIncident, createValues body⟩ ∧
    includesStr severityValues (getProp body "severity") = true ∧
    includesStr statusValues (getProp body "status") = true ∧
    (env.exec table stmt = table ∨
      env.exec table stmt = table ++ [insertedRecord env.newId env.now (createValues body)]) := by
  unfold postIncident at hs
  cases ho : (validateIncident body).outcome with
  | responded res => simp [ho, RouteResult.issued] at hs
  | threw => simp [ho, RouteResult.issued] at hs
  | next =>
    obtain ⟨hbody, hsev, hst⟩ := validateIncident_next body ho
    simp only [ho, RouteResult.issued, hbody] at hs
    have hst2 : stmt = ⟨Sql.insertIncident, createValues body⟩ := by
      unfold createIncident at hs
      cases hp : env.pool ⟨Sql.insertIncident, createValues body⟩ <;>
        simp [hp] at hs <;> exact hs
    refine ⟨hst2, hsev, hst, ?_⟩
    subst hst2
    unfold Env.exec
    cases env.pool ⟨Sql.insertIncident, createValues body⟩ with
    | failed => left; rfl
    | rows rs => right; rfl

theorem map_key_update (now : Nat) (id : String) (body : JsObject) (table : List Incident) :
    (table.map (fun r => if r.id = id then patched now body r else r)).map Incident.key =
      table.map Incident.key := by
  rw [List.map_map]
  apply List.map_congr_left
  intro r _
  simp only [Function.comp]
  split <;> rfl

theorem foldl_exec_update_key (env : Env) (id : String) (body : JsObject)
    (stmts : List Stmt) (hsub : ∀ s ∈ stmts, s ∈ (updateIncident env.pool id body).issued)
    (table : List Incident) :
    (stmts.foldl env.exec table).map Incident.key = table.map Incident.key := by
  induction stmts generalizing table with
  | nil => rfl
  | cons s rest ih =>
    simp only [List.foldl_cons]
    rw [ih (fun x hx => hsub x (List.mem_cons_of_mem _ hx))]
    rcases exec_update_stmt env id body table s (hsub s (List.mem_cons_self _ _)) with h | ⟨_, h⟩
    · rw [h]
    · rw [h, map_key_update]

theorem foldl_exec_create_key (env : Env) (body : JsObject)
    (stmts : List Stmt) (hsub : ∀ s ∈ stmts, s ∈ (postIncident env.pool body).issued)
    (table : List Incident) :
    ∃ added, (stmts.foldl env.exec table).map Incident.key = table.map Incident.key ++ added := by
  induction stmts generalizing table with
  | nil => exact ⟨[], by simp⟩
  | cons s rest ih =>
    simp only [List.foldl_cons]
    obtain ⟨added, ha⟩ := ih (fun x hx => hsub x (List.mem_cons_of_mem _ hx)) (env.exec table s)
    obtain ⟨_, _, _, h⟩ := exec_create_stmt env body table s (hsub s (List.mem_cons_self _ _))
    rcases h with h | h
    · exact ⟨added, by rw [ha, h]⟩
    · refine ⟨(insertedRecord env.newId env.now (createValues body)).key :: added, ?_⟩
      rw [ha, h, List.map_append, List.append_assoc]
      rfl

theorem apiStep_key (table : List Incident) (x : Env × ApiCall) :
    (∃ added, (apiStep table x).map Incident.key = table.map Incident.key ++ added) ∧
    ((∃ id body, x.2 = ApiCall.update id body) →
      (apiStep table x).map Incident.key = table.map Incident.key) := by
  obtain ⟨env, call⟩ := x
  cases call with
  | create body =>
    refine ⟨foldl_exec_create_key env body _ (fun s hs => hs) table, ?_⟩
    rintro ⟨id, b, h⟩
    cases h
  | update id body =>
    have h := foldl_exec_update_key env id body _ (fun s hs => hs) table
    exact ⟨⟨[], by simpa [apiStep, ApiCall.issued] using h⟩, fun _ => h⟩

theorem apiRun_key (calls : List (Env × ApiCall)) (table : List Incident) :
    (∃ added, (apiRun table calls).map Incident.key = table.map Incident.key ++ added) ∧
    ((∀ c ∈ calls, ∃ id body, c.2 = ApiCall.update id body) →
      (apiRun table calls).map Incident.key = table.map Incident.key) := by
  induction calls generalizing table with
  | nil => exact ⟨⟨[], by simp [apiRun]⟩, fun _ => rfl⟩
  | cons c rest ih =>
    obtain ⟨⟨a1, h1⟩, hu1⟩ := apiStep_key table c
    obtain ⟨⟨a2, h2⟩, hu2⟩ := ih (apiStep table c)
    have hrun : apiRun table (c :: rest) = apiRun (apiStep table c) rest := rfl
    constructor
    · exact ⟨a1 ++ a2, by rw [hrun, h2, h1, List.append_assoc]⟩
    · intro hall
      rw [hrun, hu2 (fun x hx => hall x (List.mem_cons_of_mem _ hx)),
        hu1 (hall c (List.mem_cons_self _ _))]

theorem patched_enumOk (now : Nat) (body : JsObject) (r : Incident) (he : EnumChecksPass body)
    (hr : EnumOk r) : EnumOk (patched now body r) := by
  obtain ⟨h1, h2⟩ := he
  obtain ⟨r1, r2⟩ := hr
  unfold EnumOk patched
  constructor
  · simp only []
    split
    · rename_i hd; exact h1 hd
    · exact r1
  · simp only []
    split
    · rename_i hd; exact h2 hd
    · exact r2

theorem exec_update_enumOk (env : Env) (id : String) (body : JsObject) (table : List Incident)
    (stmt : Stmt) (hs : stmt ∈ (updateIncident env.pool id body).issued)
    (ht : ∀ r ∈ table, EnumOk r) : ∀ r ∈ env.exec table stmt, EnumOk r := by
  rcases exec_update_stmt env id body table stmt hs with h | ⟨he, h⟩
  · rw [h]; exact ht
  · rw [h]
    intro r hr
    obtain ⟨r0, hr0, rfl⟩ := List.mem_map.mp hr
    split
    · exact patched_enumOk _ _ _ he (ht r0 hr0)
    · exact ht r0 hr0

theorem exec_create_enumOk (env : Env) (body : JsObject) (table : List Incident)
    (stmt : Stmt) (hs : stmt ∈ (postIncident env.pool body).issued)
    (ht : ∀ r ∈ table, EnumOk r) : ∀ r ∈ env.exec table stmt, EnumOk r := by
  obtain ⟨_, hsev, hst, h⟩ := exec_create_stmt env body table stmt hs
  rcases h with h | h
  · rw [h]; exact ht
  · rw [h]
    intro r hr
    rcases List.mem_append.mp hr with hr | hr
    · exact ht r hr
    · simp only [List.mem_singleton] at hr
      subst hr
      exact ⟨hsev, hst⟩

theorem foldl_exec_enumOk (env : Env) (call : ApiCall) (stmts : List Stmt)
    (hsub : ∀ s ∈ stmts, s ∈ call.issued env) (table : List Incident)
    (ht : ∀ r ∈ table, EnumOk r) : ∀ r ∈ stmts.foldl env.exec table, EnumOk r := by
  induction stmts generalizing table with
  | nil => exact ht
  | cons s rest ih =>
    simp only [List.foldl_cons]
    apply ih (fun x hx => hsub x (List.mem_cons_of_mem _ hx))
    have hs := hsub s (List.mem_cons_self _ _)
    cases call with
    | create body => exact exec_create_enumOk env body table s hs ht
    | update id body => exact exec_update_enumOk env id body table s hs ht

theorem apiRun_enumOk (calls : List (Env × ApiCall)) (table : List Incident)
    (ht : ∀ r ∈ table, EnumOk r) : ∀ r ∈ apiRun table calls, EnumOk r := by
  induction calls generalizing table with
  | nil => exact ht
  | cons c rest ih =>
    have hrun : apiRun table (c :: rest) = apiRun (apiStep table c) rest := rfl
    rw [hrun]
    apply ih
    exact foldl_exec_enumOk c.1 c.2 _ (fun s hs => hs) table ht

theorem roundInt_exact (n : Int) (h : n.natAbs < 9007199254740992) :
    roundInt n = JsNum.fin n := by
  simp [roundInt, h]

theorem roundInt_small (n : Int) (h0 : 0 ≤ n) (h1 : n < 9007199254740992) :
    roundInt n = JsNum.fin n :=
  roundInt_exact n (by omega)

theorem roundInt_ne_nan (n : Int) : roundInt n ≠ JsNum.nan := by
  unfold roundInt
  simp only []
  split_ifs <;> simp

theorem roundInt_nonneg (n : Int) (h : 0 ≤ n) : (roundInt n).geInt 0 = true := by
  have hn : ¬ n < 0 := by omega
  unfold roundInt
  simp only [hn, decide_False, if_false]
  split_ifs <;> simp [JsNum.geInt, h]

theorem sub_fin (a b : Int) : (JsNum.fin a - JsNum.fin b : JsNum) = roundInt (a - b) := rfl

theorem mul_fin (a b : Int) : (JsNum.fin a * JsNum.fin b : JsNum) = roundInt (a * b) := rfl

/-- For a page and a limit whose product is below `2^53` the offset is exact. -/
theorem offset_exact (page limit : Int) (h1 : 1 ≤ page) (h2 : 1 ≤ limit)
    (h : page * limit < 9007199254740992) :
    ((JsNum.fin page - 1) * JsNum.fin limit : JsNum) = JsNum.fin ((page - 1) * limit) := by
  have hp : page - 1 < 9007199254740992 := by nlinarith
  have hm : (page - 1) * limit < 9007199254740992 := by nlinarith
  have hm0 : 0 ≤ (page - 1) * limit := Int.mul_nonneg (by omega) (by omega)
  rw [JsNum.one_def, sub_fin, roundInt_small _ (by omega) hp, mul_fin, roundInt_small _ hm0 hm]

/-- The offset of a page and a limit that are both at least 1 is not negative, unless
the limit is infinite. -/
theorem offset_nonneg (page limit : JsNum) (hp : page.geInt 1 = true)
    (hl : limit.geInt 1 = true) (hfin : limit ≠ JsNum.inf false) :
    ((page - 1) * limit).geInt 0 = true := by
  cases limit with
  | nan => simp [JsNum.geInt] at hl
  | inf b => cases b <;> simp_all [JsNum.geInt]
  | fin l =>
    have hl1 : 1 ≤ l := by simpa [JsNum.geInt] using hl
    cases page with
    | nan => simp [JsNum.geInt] at hp
    | inf b =>
      cases b
      · have hl0 : l ≠ 0 := by omega
        have hl2 : ¬ l < 0 := by omega
        show (JsNum.mul (JsNum.sub (JsNum.inf false) (JsNum.fin 1)) (JsNum.fin l)).geInt 0 = true
        simp [JsNum.sub, JsNum.mul, hl0, hl2, JsNum.geInt]
      · simp [JsNum.geInt] at hp
    | fin a =>
      have ha1 : 1 ≤ a := by simpa [JsNum.geInt] using hp
      rw [JsNum.one_def, sub_fin]
      have h0 := roundInt_nonneg (a - 1) (by omega)
      have hne := roundInt_ne_nan (a - 1)
      cases hr : roundInt (a - 1) with
      | nan => exact absurd hr hne
      | inf b =>
        rw [hr] at h0
        cases b
        · have hl0 : l ≠ 0 := by omega
          have hl2 : ¬ l < 0 := by omega
          show (JsNum.mul (JsNum.inf false) (JsNum.fin l)).geInt 0 = true
          simp [JsNum.mul, hl0, hl2, JsNum.geInt]
        · simp [JsNum.geInt] at h0
      | fin r =>
        rw [hr] at h0
        have hr0 : 0 ≤ r := by simpa [JsNum.geInt] using h0
        rw [mul_fin]
        exact roundInt_nonneg _ (Int.mul_nonneg hr0 (by omega))

theorem roundHalfEven_le (k : ℚ) (C : ℤ) (h : k ≤ C) : roundHalfEven k ≤ C := by
  unfold roundHalfEven
  simp only []
  have hf : Int.floor k ≤ C := by
    have := Int.floor_le k
    exact_mod_cast (this.trans h)
  split_ifs with hc
  · -- rounding up: k is not an integer
    have hfrac : (0 : ℚ) < k - (Int.floor k : ℚ) := by
      rcases hc with hc | hc
      · linarith
      · rw [hc.1]; norm_num
    have hlt : ((Int.floor k : ℤ) : ℚ) < (C : ℚ) := by linarith
    have : Int.floor k < C := by exact_mod_cast hlt
    omega
  · exact hf

theorem roundHalfEven_gt (k : ℚ) (C : ℤ) (h : (C : ℚ) + 1 / 2 < k) :
    C + 1 ≤ roundHalfEven k := by
  unfold roundHalfEven
  simp only []
  have hf : C ≤ Int.floor k := by
    rw [Int.le_floor]
    linarith
  split_ifs with hc
  · omega
  · rcases hf.lt_or_eq with hlt | heq
    · omega
    · exfalso
      apply hc
      left
      rw [← heq]
      linarith

theorem roundPos_ceil (t l : Int) (ht : 0 < t) (ht2 : t < 9007199254740992) (hl : 1 ≤ l)
    (hl2 : l < 9007199254740992) :
    ∃ v, roundPos ((t : ℚ) / (l : ℚ)) = some v ∧ Int.ceil v = Int.ceil ((t : ℚ) / (l : ℚ)) := by
  have hlq : (0 : ℚ) < (l : ℚ) := by exact_mod_cast (by omega : (0 : ℤ) < l)
  have htq : (0 : ℚ) < (t : ℚ) := by exact_mod_cast ht
  have hl1q : (1 : ℚ) ≤ (l : ℚ) := by exact_mod_cast hl
  have ht2q : (t : ℚ) < 9007199254740992 := by exact_mod_cast ht2
  have hl2q : (l : ℚ) < 9007199254740992 := by exact_mod_cast hl2
  set q : ℚ := (t : ℚ) / (l : ℚ) with hq
  have hq0 : 0 < q := div_pos htq hlq
  have hqt : q ≤ t := div_le_self htq.le hl1q
  have hq53 : q < (2 : ℚ) ^ (53 : ℤ) := by
    have : (2 : ℚ) ^ (53 : ℤ) = 9007199254740992 := by norm_num
    rw [this]; linarith
  have hlog : Int.log 2 q < 53 := (Int.lt_zpow_iff_log_lt (by norm_num) hq0).mp hq53
  set e : ℤ := max (Int.log 2 q) (-1022) with he
  have he52 : e ≤ 52 := by
    rw [he]; exact max_le (by omega) (by norm_num)
  obtain ⟨m, hm⟩ : ∃ m : ℕ, (m : ℤ) = 52 - e := ⟨(52 - e).toNat, Int.toNat_of_nonneg (by omega)⟩
  set quantum : ℚ := (2 : ℚ) ^ (e - 52) with hquant
  have hqn : quantum = ((2 ^ m : ℕ) : ℚ)⁻¹ := by
    rw [hquant, show e - 52 = -(m : ℤ) by omega, zpow_neg, zpow_natCast]
    push_cast
    rfl
  have hNpos : (0 : ℚ) < ((2 ^ m : ℕ) : ℚ) := by positivity
  have hquantpos : 0 < quantum := by rw [hqn]; positivity
  -- the quantum times the limit is below 2
  have hql : quantum * l < 2 := by
    rcases le_total (Int.log 2 q) (-1022) with hle | hle
    · have : e = -1022 := by rw [he]; exact max_eq_right hle
      rw [hquant, this]
      have h2 : (2 : ℚ) ^ ((-1022 : ℤ) - 52) ≤ (2 : ℚ) ^ (-(52 : ℤ)) :=
        zpow_le_zpow_right₀ (by norm_num) (by norm_num)
      have h3 : (2 : ℚ) ^ (-(52 : ℤ)) * 9007199254740992 = 2 := by norm_num
      have h4 : (0 : ℚ) < (2 : ℚ) ^ ((-1022 : ℤ) - 52) := by positivity
      nlinarith
    · have : e = Int.log 2 q := by rw [he]; exact max_eq_left hle
      have h1 : (2 : ℚ) ^ (Int.log 2 q) ≤ q := Int.zpow_log_le_self (by norm_num) hq0
      have h2 : quantum = (2 : ℚ) ^ (Int.log 2 q) * (2 : ℚ) ^ (-(52 : ℤ)) := by
        rw [hquant, this, ← zpow_add₀ (by norm_num : (2 : ℚ) ≠ 0)]
        rfl
      have h3 : (2 : ℚ) ^ (-(52 : ℤ)) = 1 / 4503599627370496 := by norm_num
      have h5 : q * l = t := by rw [hq]; field_simp
      have h6 : quantum * l ≤ q * (1 / 4503599627370496) * l := by
        rw [h2, h3]
        apply mul_le_mul_of_nonneg_right _ hlq.le
        apply mul_le_mul_of_nonneg_right h1 (by norm_num)
      have h7 : q * (1 / 4503599627370496) * l = t / 4503599627370496 := by
        rw [← h5]; ring
      rw [h7] at h6
      have : (t : ℚ) / 4503599627370496 < 2 := by
        rw [div_lt_iff₀ (by norm_num)]; linarith
      linarith
  set c : ℤ := Int.ceil q with hc
  have hc1 : ((c - 1 : ℤ) : ℚ) < q := by
    have := Int.ceil_lt_add_one q
    push_cast
    linarith
  have hc2 : q ≤ (c : ℚ) := Int.le_ceil q
  -- the numerator is an integer above `(c - 1) * l`
  have hstep : ((c - 1 : ℤ) : ℚ) + 1 / l ≤ q := by
    have h1 : ((c - 1) * l : ℤ) < t := by
      have : (((c - 1) * l : ℤ) : ℚ) < (t : ℚ) := by
        push_cast
        have := (lt_div_iff₀ hlq).mp (by rw [← hq]; push_cast at hc1; exact hc1 :
          ((c : ℚ) - 1) < (t : ℚ) / (l : ℚ))
        linarith
      exact_mod_cast this
    have h2 : ((c - 1) * l + 1 : ℤ) ≤ t := by omega
    have h3 : (((c - 1) * l + 1 : ℤ) : ℚ) ≤ (t : ℚ) := by exact_mod_cast h2
    rw [hq, le_div_iff₀ hlq]
    push_cast at h3 ⊢
    have : (1 : ℚ) / l * l = 1 := by field_simp
    nlinarith
  have hk : q / quantum = q * ((2 ^ m : ℕ) : ℚ) := by
    rw [hqn, div_eq_mul_inv, inv_inv]
  have hup : roundHalfEven (q / quantum) ≤ c * (2 ^ m : ℕ) := by
    apply roundHalfEven_le
    rw [hk]
    push_cast
    exact mul_le_mul_of_nonneg_right hc2 (by positivity)
  have hlow : (c - 1) * (2 ^ m : ℕ) + 1 ≤ roundHalfEven (q / quantum) := by
    apply roundHalfEven_gt
    rw [hk]
    have hN : (1 : ℚ) / 2 < 1 / l * ((2 ^ m : ℕ) : ℚ) := by
      have : quantum * l * ((2 ^ m : ℕ) : ℚ) = l := by
        rw [hqn]; field_simp
      have h8 : (1 : ℚ) / l * ((2 ^ m : ℕ) : ℚ) = 1 / (quantum * l) := by
        rw [hqn]; field_simp
      rw [h8, lt_div_iff₀ (mul_pos hquantpos hlq)]
      linarith
    push_cast at hstep ⊢
    have hNn : (0 : ℚ) ≤ ((2 : ℚ) ^ m) := by positivity
    have := mul_le_mul_of_nonneg_right hstep hNn
    push_cast at hN
    nlinarith
  set r : ℤ := roundHalfEven (q / quantum) with hr
  have hv1 : ((c - 1 : ℤ) : ℚ) < (r : ℚ) * quantum := by
    rw [hqn, ← div_eq_mul_inv, lt_div_iff₀ hNpos]
    have : (((c - 1) * (2 ^ m : ℕ) + 1 : ℤ) : ℚ) ≤ (r : ℚ) := by exact_mod_cast hlow
    push_cast at this ⊢
    linarith
  have hv2 : (r : ℚ) * quantum ≤ (c : ℚ) := by
    rw [hqn, ← div_eq_mul_inv, div_le_iff₀ hNpos]
    have : (r : ℚ) ≤ ((c * (2 ^ m : ℕ) : ℤ) : ℚ) := by exact_mod_cast hup
    push_cast at this ⊢
    linarith
  have hct : (c : ℚ) ≤ t := by
    have : c ≤ t := Int.ceil_le.mpr hqt
    exact_mod_cast this
  refine ⟨(r : ℚ) * quantum, ?_, ?_⟩
  · unfold roundPos
    simp only []
    rw [if_pos]
    have : (9007199254740992 : ℚ) < (2 : ℚ) ^ (1024 : ℤ) := by norm_num
    show (r : ℚ) * quantum < 2 ^ (1024 : ℤ)
    linarith
  · rw [Int.ceil_eq_iff]
    exact ⟨by push_cast at hv1; exact hv1, hv2⟩

theorem ceilQuotient_exact (t l : Int) (ht : 0 ≤ t) (ht2 : t < 9007199254740992) (hl : 1 ≤ l)
    (hl2 : l < 9007199254740992) :
    ceilQuotient t l = JsNum.fin (Int.ceil ((t : ℚ) / (l : ℚ))) := by
  have hlq : (0 : ℚ) < (l : ℚ) := by exact_mod_cast (by omega : (0 : ℤ) < l)
  rcases ht.lt_or_eq with hpos | hzero
  · have htq : (0 : ℚ) < (t : ℚ) := by exact_mod_cast hpos
    have hq0 : (0 : ℚ) < (t : ℚ) / (l : ℚ) := div_pos htq hlq
    obtain ⟨v, hv, hcv⟩ := roundPos_ceil t l hpos ht2 hl hl2
    unfold ceilQuotient
    simp only [hq0.ne', if_false, abs_of_pos hq0, hv, not_lt.mpr hq0.le, hcv]
  · subst hzero
    simp [ceilQuotient, JsNum.zero_def]

theorem totalPages_exact (t l : Int) (ht : 0 ≤ t) (ht2 : t < 9007199254740992) (hl : 1 ≤ l)
    (hl2 : l < 9007199254740992) :
    totalPages (JsNum.fin t) (JsNum.fin l) = JsNum.fin (Int.ceil ((t : ℚ) / (l : ℚ))) := by
  have hl0 : l ≠ 0 := by omega
  show JsNum.ceilDiv _ _ = _
  simp only [JsNum.ceilDiv, hl0, if_false]
  exact ceilQuotient_exact t l ht ht2 hl hl2

theorem totalPages_ne_nan (t : Int) (limit : JsNum) (h : limit.truthy = true) :
    totalPages (JsNum.fin t) limit ≠ JsNum.nan := by
  cases limit with
  | nan => simp [JsNum.truthy] at h
  | inf b => simp [totalPages, JsNum.ceilDiv, JsNum.zero_def]
  | fin l =>
    have hl0 : l ≠ 0 := by simpa [JsNum.truthy] using h
    show JsNum.ceilDiv _ _ ≠ _
    simp only [JsNum.ceilDiv, hl0, if_false]
    unfold ceilQuotient
    simp only []
    split_ifs
    · simp [JsNum.zero_def]
    all_goals cases roundPos |(t : ℚ) / (l : ℚ)| <;> simp

theorem pageOf_exact (ordered : List Row) (p : ListPlan) (limit offset : Int)
    (hcnt : p.paramCounter = p.queryParams.length + 1)
    (hl : p.limit = JsNum.fin limit) (ho : p.offset = JsNum.fin offset)
    (h1 : 0 ≤ limit) (h2 : 0 ≤ offset) (h3 : limit < 9223372036854775808)
    (h4 : offset < 9223372036854775808) :
    pageOf ordered p.dataStmt = Reply.rows (limitOffset limit.toNat offset.toNat ordered) := by
  have ha : paramAt p.dataStmt.params p.paramCounter = JsVal.num (JsNum.fin limit) := by
    rw [hcnt, ← hl]; exact paramAt_append_fst _ _ _
  have hb : paramAt p.dataStmt.params (p.paramCounter + 1) = JsVal.num (JsNum.fin offset) := by
    rw [hcnt, ← ho]; exact paramAt_append_snd _ _ _
  show (match paramAt p.dataStmt.params p.paramCounter,
      paramAt p.dataStmt.params (p.paramCounter + 1) with
    | .num (.fin l), .num (.fin o) =>
      if 0 ≤ l ∧ 0 ≤ o ∧ l < 9223372036854775808 ∧ o < 9223372036854775808 then
        Reply.rows (limitOffset l.toNat o.toNat ordered)
      else Reply.failed
    | _, _ => Reply.failed) = _
  rw [ha, hb]
  simp [h1, h2, h3, h4]

/-! ## Theorems -/

/-- C1: for a creation payload whose four checked fields are strings or absent,
`validateIncident` leaves the body as it is and either answers `400` with the
messages of the violated rules (one per violated rule, in the order title, service,
severity, status) or calls `next()`; it answers `400` exactly when some rule is
violated. A missing title gives "Title is required", severity "SEV9" gives the
severity message. -/
theorem validateIncident_contract (body : JsObject)
    (ht : StrOrAbsent (getProp body "title")) (hs : StrOrAbsent (getProp body "service"))
    (hv : StrOrAbsent (getProp body "severity")) (hu : StrOrAbsent (getProp body "status")) :
    (validateIncident body).body = body ∧
    ((validateIncident body).outcome =
        MwOutcome.responded ⟨400, RespBody.errors (violations body)⟩ ↔
      (isBlankField (getProp body "title") = true ∨
       isBlankField (getProp body "service") = true ∨
       notInEnum severityValues (getProp body "severity") = true ∨
       notInEnum statusValues (getProp body "status") = true)) ∧
    ((validateIncident body).outcome = MwOutcome.next ↔
      ¬ (isBlankField (getProp body "title") = true ∨
         isBlankField (getProp body "service") = true ∨
         notInEnum severityValues (getProp body "severity") = true ∨
         notInEnum statusValues (getProp body "status") = true)) ∧
    (∀ res, (validateIncident body).outcome = MwOutcome.responded res →
      res = ⟨400, RespBody.errors (violations body)⟩) ∧
    (getProp body "title" = JsVal.undefined → "Title is required" ∈ violations body) ∧
    (getProp body "severity" = JsVal.str "SEV9" →
      "Severity must be one of: SEV1, SEV2, SEV3, SEV4" ∈ violations body) := by
  rw [validateIncident_eq body ht hs hv hu]
  refine ⟨rfl, ?_, ?_, ?_, ?_, ?_⟩
  · unfold violations ruleTable
    cases isBlankField (getProp body "title") <;> cases isBlankField (getProp body "service") <;>
    cases notInEnum severityValues (getProp body "severity") <;>
    cases notInEnum statusValues (getProp body "status") <;> simp
  · unfold violations ruleTable
    cases isBlankField (getProp body "title") <;> cases isBlankField (getProp body "service") <;>
    cases notInEnum severityValues (getProp body "severity") <;>
    cases notInEnum statusValues (getProp body "status") <;> simp
  · intro res
    by_cases hv0 : violations body = []
    · simp [hv0]
    · simp only [hv0, if_false]
      intro h
      injection h with h
      exact h.symm
  · intro h
    unfold violations ruleTable
    simp [h, isBlankField]
  · intro h
    unfold violations ruleTable
    simp only [h, notInEnum]
    have : decide ("SEV9" ∉ severityValues) = true := by decide
    simp [this]

/-- C1 at a payload without title and with severity "SEV9": both messages, in order. -/
theorem validateIncident_contract_witness :
    StrOrAbsent (getProp [("service", JsVal.str "api"), ("severity", JsVal.str "SEV9"),
        ("status", JsVal.str "OPEN")] "title") ∧
    (validateIncident [("service", JsVal.str "api"), ("severity", JsVal.str "SEV9"),
        ("status", JsVal.str "OPEN")]).outcome =
      MwOutcome.responded ⟨400, RespBody.errors
        ["Title is required", "Severity must be one of: SEV1, SEV2, SEV3, SEV4"]⟩ :=
  ⟨Or.inl rfl,
   ((validateIncident_contract
      [("service", JsVal.str "api"), ("severity", JsVal.str "SEV9"), ("status", JsVal.str "OPEN")]
      (Or.inl rfl) (Or.inr ⟨"api", rfl⟩) (Or.inr ⟨"SEV9", rfl⟩) (Or.inr ⟨"OPEN", rfl⟩)).2.1).mpr
      (Or.inl rfl)⟩

/-- C2: on an existing id and a payload that passes the enumeration checks, the
handler sends the existence check and, when some updatable field is present, one
`UPDATE` whose `SET` list names exactly the present fields, each bound to the
payload's value, followed by `updated_at = CURRENT_TIMESTAMP`. Executed on a table,
that statement gives the targeted record the payload's value in every present field
and a fresh `updated_at`, and leaves every absent field, `id` and `created_at` as
they were. -/
theorem updateIncident_applies_present_fields (pool : Pool) (id : String) (body : JsObject)
    (rows : List Row) (hex : pool (selectByIdStmt id) = Reply.rows rows) (hrows : rows ≠ [])
    (he : EnumChecksPass body) :
    (updateIncident pool id body).issued =
      selectByIdStmt id ::
        (if presentFields body = [] then []
         else [⟨Sql.update (expectedSets body) ((presentFields body).length + 1),
                expectedValues id body⟩]) ∧
    (∀ now r, applySet now (expectedValues id body) (expectedSets body) r = patched now body r) ∧
    (presentFields body ≠ [] → ∀ now table,
      (updateIncident pool id body).issued.foldl (execStmt now) table =
        table.map (fun r => if r.id = id then patched now body r else r)) := by
  have hissued : (updateIncident pool id body).issued =
      selectByIdStmt id ::
        (if presentFields body = [] then []
         else [⟨Sql.update (expectedSets body) ((presentFields body).length + 1),
                expectedValues id body⟩]) := by
    by_cases hne : presentFields body = []
    · rw [updateIncident_of_error pool id body rows _ hex hrows (buildUpdate_no_fields id body hne)]
      simp [hne]
    · rw [(updateIncident_of_ok pool id body rows _ hex hrows (buildUpdate_ok id body he hne)).1]
      simp [hne]
  refine ⟨hissued, fun now r => applySet_expected now id body r, ?_⟩
  intro hne now table
  rw [hissued]
  simp only [hne, if_false, List.foldl_cons, List.foldl_nil, execStmt_select]
  unfold execStmt execUpdate
  simp only [paramAt_expected, applySet_expected]

/-- C2 at the payload `{status: 'RESOLVED'}`: the update sets `status` and
`updated_at` only. -/
theorem updateIncident_applies_present_fields_witness :
    existingPool (selectByIdStmt "7") =
      Reply.rows [[("id", DbVal.text "7"), ("status", DbVal.text "OPEN")]] ∧
    EnumChecksPass [("status", JsVal.str "RESOLVED")] ∧
    (updateIncident existingPool "7" [("status", JsVal.str "RESOLVED")]).issued =
      [selectByIdStmt "7",
       ⟨Sql.update [SetItem.bind "status" 1, SetItem.touch] 2,
        [JsVal.str "RESOLVED", JsVal.str "7"]⟩] :=
  ⟨rfl, by unfold EnumChecksPass; decide,
   (updateIncident_applies_present_fields existingPool "7" [("status", JsVal.str "RESOLVED")]
      [[("id", DbVal.text "7"), ("status", DbVal.text "OPEN")]] rfl (by simp)
      (by unfold EnumChecksPass; decide)).1.trans rfl⟩

/-- C3: on an existing id, a payload whose severity is present and outside
`SEV1..SEV4`, or whose status is present and outside `OPEN, MITIGATED, RESOLVED`, is
answered with `400`; only the existence check is sent, so no table changes,
whatever other fields the payload carries. -/
theorem updateIncident_rejects_invalid_enum (pool : Pool) (id : String) (body : JsObject)
    (rows : List Row) (hex : pool (selectByIdStmt id) = Reply.rows rows) (hrows : rows ≠ [])
    (hbad : ((getProp body "severity").isDefined = true ∧
              includesStr severityValues (getProp body "severity") = false) ∨
            ((getProp body "status").isDefined = true ∧
              includesStr statusValues (getProp body "status") = false)) :
    (updateIncident pool id body).response.status = 400 ∧
    (updateIncident pool id body).issued = [selectByIdStmt id] ∧
    (∀ now table, (updateIncident pool id body).issued.foldl (execStmt now) table = table) := by
  have key : ∃ msg, updateIncident pool id body =
      ⟨⟨400, RespBody.error msg⟩, [selectByIdStmt id]⟩ := by
    by_cases hsev : (getProp body "severity").isDefined = true ∧
        includesStr severityValues (getProp body "severity") = false
    · exact ⟨_, updateIncident_of_error pool id body rows _ hex hrows
        (buildUpdate_bad_severity id body hsev.1 hsev.2)⟩
    · rcases hbad with h | h
      · exact absurd h hsev
      · have hs : (getProp body "severity").isDefined = true →
            includesStr severityValues (getProp body "severity") = true := by
          intro hd
          cases hx : includesStr severityValues (getProp body "severity")
          · exact absurd ⟨hd, hx⟩ hsev
          · rfl
        exact ⟨_, updateIncident_of_error pool id body rows _ hex hrows
          (buildUpdate_bad_status id body hs h.1 h.2)⟩
  obtain ⟨msg, hk⟩ := key
  rw [hk]
  exact ⟨rfl, rfl, fun now table => rfl⟩

/-- C3 at a payload with a valid title and severity "BAD". -/
theorem updateIncident_rejects_invalid_enum_witness :
    existingPool (selectByIdStmt "7") =
      Reply.rows [[("id", DbVal.text "7"), ("status", DbVal.text "OPEN")]] ∧
    (updateIncident existingPool "7"
        [("title", JsVal.str "new title"), ("severity", JsVal.str "BAD")]).response.status = 400 ∧
    (updateIncident existingPool "7"
        [("title", JsVal.str "new title"), ("severity", JsVal.str "BAD")]).issued =
      [selectByIdStmt "7"] :=
  have h := updateIncident_rejects_invalid_enum existingPool "7"
      [("title", JsVal.str "new title"), ("severity", JsVal.str "BAD")]
      [[("id", DbVal.text "7"), ("status", DbVal.text "OPEN")]] rfl (by simp)
      (Or.inl ⟨rfl, rfl⟩)
  ⟨rfl, h.1, h.2.1⟩

/-- C4: when the existence check returns no row the handler answers
`404 {error: 'Incident not found'}` for every payload and sends nothing but that
check. -/
theorem updateIncident_not_found (pool : Pool) (id : String) (body : JsObject)
    (hex : pool (selectByIdStmt id) = Reply.rows []) :
    updateIncident pool id body =
      ⟨⟨404, RespBody.error "Incident not found"⟩, [selectByIdStmt id]⟩ := by
  unfold updateIncident
  simp [hex]

/-- C4 over an empty table, with a payload whose severity is invalid. -/
theorem updateIncident_not_found_witness :
    emptyPool (selectByIdStmt "7") = Reply.rows [] ∧
    updateIncident emptyPool "7" [("severity", JsVal.str "BAD")] =
      ⟨⟨404, RespBody.error "Incident not found"⟩, [selectByIdStmt "7"]⟩ :=
  ⟨rfl, updateIncident_not_found emptyPool "7" [("severity", JsVal.str "BAD")] rfl⟩

/-- C5: on an existing id, a payload in which none of the six updatable fields is
present is answered with `400 {error: 'No fields to update'}` and only the existence
check is sent; and no run of the handler ever sends an `UPDATE` whose `SET` list is
`updated_at = CURRENT_TIMESTAMP` alone. -/
theorem updateIncident_no_fields (pool : Pool) (id : String) (body : JsObject)
    (rows : List Row) (hex : pool (selectByIdStmt id) = Reply.rows rows) (hrows : rows ≠ [])
    (hnone : ∀ f ∈ updatableFields, getProp body f = JsVal.undefined) :
    updateIncident pool id body =
      ⟨⟨400, RespBody.error "No fields to update"⟩, [selectByIdStmt id]⟩ ∧
    (∀ (pool2 : Pool) (id2 : String) (body2 : JsObject) (stmt : Stmt) (sets : List SetItem)
        (n : Nat),
      stmt ∈ (updateIncident pool2 id2 body2).issued → stmt.sql = Sql.update sets n →
      sets ≠ [SetItem.touch]) := by
  refine ⟨updateIncident_of_error pool id body rows _ hex hrows
    (buildUpdate_no_fields id body (presentFields_nil_of_absent body hnone)), ?_⟩
  intro pool2 id2 body2 stmt sets n hs hsql
  rcases updateIncident_issued pool2 id2 body2 stmt hs with h | ⟨b, hb, h⟩
  · rw [h] at hsql
    cases hsql
  · obtain ⟨_, hne, hbe⟩ := buildUpdate_ok_inv id2 body2 b hb
    rw [h, hbe] at hsql
    injection hsql with h1 h2
    rw [← h1]
    exact expectedSets_ne_touch body2 hne

/-- C5 at a payload made of unknown keys only. -/
theorem updateIncident_no_fields_witness :
    existingPool (selectByIdStmt "7") =
      Reply.rows [[("id", DbVal.text "7"), ("status", DbVal.text "OPEN")]] ∧
    updateIncident existingPool "7" [("id", JsVal.str "9"), ("note", JsVal.num 1)] =
      ⟨⟨400, RespBody.error "No fields to update"⟩, [selectByIdStmt "7"]⟩ :=
  ⟨rfl, (updateIncident_no_fields existingPool "7" [("id", JsVal.str "9"), ("note", JsVal.num 1)]
      [[("id", DbVal.text "7"), ("status", DbVal.text "OPEN")]] rfl (by simp)
      (by
        intro f hf
        simp only [updatableFields, List.mem_cons, List.mem_singleton, List.not_mem_nil,
          or_false] at hf
        rcases hf with h | h | h | h | h | h <;> subst h <;> rfl)).1⟩

/-- C6, amended: for a request whose `sortBy` is not an allowed column (absent, an
array, or any other string such as `owner_email`) and whose filters and `sortOrder`
are given at most once, the handler builds its statements without throwing; the data
query is ordered by `created_at`, in the direction `ASC` when `sortOrder` upper-cased
is `ASC` and `DESC` otherwise (`DESC` when `sortOrder` is absent or empty); and when
the pool answers both statements the response is `200`. -/
theorem getIncidents_sort_fallback (q : ListQuery) (hplain : q.Plain)
    (hs : ∀ s, q.sortBy = QVal.str s → s ∉ allowedSortColumns) :
    ∃ p, buildList q = some p ∧ p.safeSortBy = "created_at" ∧
      p.safeSortOrder =
        (if toUpperCase (q.sortOrder.orElse "DESC") = some "ASC" then "ASC" else "DESC") ∧
      (q.sortOrder.truthy = false → p.safeSortOrder = "DESC") ∧
      p.dataStmt.sql =
        Sql.page p.whereConditions "created_at" p.safeSortOrder p.paramCounter
          (p.paramCounter + 1) ∧
      (∀ (pool : Pool) (row0 : Row) (rest rows : List Row),
        pool p.countStmt = Reply.rows (row0 :: rest) → pool p.dataStmt = Reply.rows rows →
        (getIncidents pool q).response.status = 200) := by
  obtain ⟨p, hp⟩ := buildList_plain q hplain
  obtain ⟨services, severities, statuses, upper, _, _, _, hu, hpe⟩ := buildList_inv q p hp
  have hsb : p.safeSortBy = "created_at" := by
    rw [hpe]; exact safeSortBy_fallback _ hs
  have hso : p.safeSortOrder =
      (if toUpperCase (q.sortOrder.orElse "DESC") = some "ASC" then "ASC" else "DESC") := by
    rw [hpe, hu]; simp
  refine ⟨p, hp, hsb, hso, ?_, ?_, ?_⟩
  · intro hf
    rw [hso, orElse_falsy _ _ hf]
    rfl
  · simp [ListPlan.dataStmt, hsb]
  · intro pool row0 rest rows hc hd
    rw [getIncidents_ok pool q p row0 rest rows hp hc hd]

/-- C6 at `sortBy=owner_email` without `sortOrder`: ordered by `created_at DESC`. -/
theorem getIncidents_sort_fallback_witness :
    { emptyQuery with sortBy := QVal.str "owner_email" }.Plain ∧
    (∀ s, QVal.str "owner_email" = QVal.str s → s ∉ allowedSortColumns) ∧
    ∃ p, buildList { emptyQuery with sortBy := QVal.str "owner_email" } = some p ∧
      p.safeSortBy = "created_at" ∧ p.safeSortOrder = "DESC" :=
  have hs : ∀ s, QVal.str "owner_email" = QVal.str s → s ∉ allowedSortColumns := by
    intro s h
    injection h with h
    subst h
    decide
  have h := getIncidents_sort_fallback { emptyQuery with sortBy := QVal.str "owner_email" }
    ⟨rfl, rfl, rfl, rfl⟩ hs
  ⟨⟨rfl, rfl, rfl, rfl⟩, hs, h.elim (fun p hp => ⟨p, hp.1, hp.2.1, hp.2.2.2.1 rfl⟩)⟩

/-- C6 as stated fails: with `sortBy=owner_email&sortOrder=asc` the data query is
ordered by `created_at ASC`, not `created_at DESC`. -/
theorem sort_fallback_counterexample :
    "owner_email" ∉ allowedSortColumns ∧
    ∃ p, buildList { emptyQuery with sortBy := QVal.str "owner_email",
                                     sortOrder := QVal.str "asc" } = some p ∧
      p.dataStmt.sql = Sql.page [] "created_at" "ASC" 1 2 ∧
      p.safeSortOrder ≠ "DESC" :=
  ⟨by decide, _, rfl, rfl, by decide⟩

/-- C7: a record satisfies the generated `WHERE` clause exactly when it passes the
search condition and, for each of service, severity and status, its value is a member
of the comma-separated filter list whenever that list is non-empty; without a search
string the clause is the conjunction of the three filter restrictions alone, an absent
or empty filter imposing none. With `statuses=OPEN,MITIGATED` every matching record
has status `OPEN` or `MITIGATED`. -/
theorem getIncidents_filter_semantics (q : ListQuery) (p : ListPlan)
    (hp : buildList q = some p) (r : Incident) :
    (whereHolds p.whereConditions p.queryParams r = true ↔
      (searchAdmits q.search r ∧ filterAdmits q.services r.service ∧
       filterAdmits q.severities r.severity ∧ filterAdmits q.statuses r.status)) ∧
    (q.search.truthy = false →
      (whereHolds p.whereConditions p.queryParams r = true ↔
        (filterAdmits q.services r.service ∧ filterAdmits q.severities r.severity ∧
         filterAdmits q.statuses r.status))) ∧
    (q.statuses = QVal.str "OPEN,MITIGATED" →
      ∀ table, ∀ x ∈ matchingRows p table,
        x.status = JsVal.str "OPEN" ∨ x.status = JsVal.str "MITIGATED") := by
  refine ⟨whereHolds_plan q p hp r, ?_, ?_⟩
  · intro hs
    rw [whereHolds_plan q p hp r]
    simp [searchAdmits, hs]
  · intro hst table x hx
    have hx2 := (List.mem_filter.mp hx).2
    have h := ((whereHolds_plan q p hp x).mp hx2).2.2.2
    rw [hst] at h
    simp only [filterAdmits] at h
    rcases h with h | ⟨v, hv, hm⟩
    · exact absurd h (by decide)
    · have hc : commaList "OPEN,MITIGATED" = ["OPEN", "MITIGATED"] := by rfl
      rw [hc] at hm
      simp only [List.mem_cons, List.mem_singleton, List.not_mem_nil, or_false] at hm
      rcases hm with hm | hm
      · left; rw [hv, hm]
      · right; rw [hv, hm]

/-- C7 at `statuses=OPEN,MITIGATED` and a record with status `OPEN`. -/
theorem getIncidents_filter_semantics_witness :
    buildList { emptyQuery with statuses := QVal.str "OPEN,MITIGATED" } =
      some { page := 1, limit := 10, offset := 0,
             whereConditions := [Cond.anyOf "status" 1],
             queryParams := [strArray ["OPEN", "MITIGATED"]], paramCounter := 2,
             safeSortBy := "created_at", safeSortOrder := "DESC" } ∧
    (whereHolds [Cond.anyOf "status" 1] [strArray ["OPEN", "MITIGATED"]] timeoutRecord = true ↔
      (filterAdmits QVal.absent timeoutRecord.service ∧
       filterAdmits QVal.absent timeoutRecord.severity ∧
       filterAdmits (QVal.str "OPEN,MITIGATED") timeoutRecord.status)) :=
  ⟨rfl, (getIncidents_filter_semantics { emptyQuery with statuses := QVal.str "OPEN,MITIGATED" }
      { page := 1, limit := 10, offset := 0,
        whereConditions := [Cond.anyOf "status" 1],
        queryParams := [strArray ["OPEN", "MITIGATED"]], paramCounter := 2,
        safeSortBy := "created_at", safeSortOrder := "DESC" } rfl timeoutRecord).2.1 rfl⟩

/-- C8, amended: for a non-empty search string `s` the first condition is
`(title ILIKE $1 OR summary ILIKE $1)` with `$1` bound to `'%' + s + '%'`, so every
matching record has a title or a summary that matches that pattern; when `s` holds
none of the pattern characters `%`, `_` and backslash, matching the pattern is the
same as containing `s` as a substring, compared case-insensitively. An empty or
absent search adds no search condition. -/
theorem getIncidents_search_semantics (q : ListQuery) (p : ListPlan)
    (hp : buildList q = some p) :
    (∀ s, q.search = QVal.str s → s ≠ "" →
      (∃ rest, p.whereConditions = Cond.search 1 :: rest) ∧
      paramAt p.queryParams 1 = JsVal.str ("%" ++ s ++ "%") ∧
      (∀ r : Incident, whereHolds p.whereConditions p.queryParams r = true →
        ilikeCell r.title ("%" ++ s ++ "%") = true ∨
        ilikeCell r.summary ("%" ++ s ++ "%") = true) ∧
      (hasLikeMeta s = false →
        (∀ r : Incident, (ilikeCell r.title ("%" ++ s ++ "%") = true ∨
               ilikeCell r.summary ("%" ++ s ++ "%") = true) ↔
              (containsFold r.title s ∨ containsFold r.summary s)) ∧
        (∀ table, ∀ r ∈ matchingRows p table,
          containsFold r.title s ∨ containsFold r.summary s))) ∧
    (q.search.truthy = false → ∀ n, Cond.search n ∉ p.whereConditions) := by
  obtain ⟨services, severities, statuses, upper, h1, h2, h3, _, hpe⟩ := buildList_inv q p hp
  constructor
  · intro s hq hs
    have ht : q.search.truthy = true := by rw [hq]; exact str_truthy_of_ne s hs
    have hse : q.search.orElse "" = QVal.str s := by rw [orElse_truthy _ _ ht, hq]
    rw [hse] at hpe
    have hb := buildWhere_search (QVal.str s) services severities statuses
      (str_truthy_of_ne s hs)
    have hmatch : ∀ r : Incident, whereHolds p.whereConditions p.queryParams r = true →
        ilikeCell r.title ("%" ++ s ++ "%") = true ∨
        ilikeCell r.summary ("%" ++ s ++ "%") = true := by
      intro r hr
      have := ((whereHolds_plan q p hp r).mp hr).1
      unfold searchAdmits at this
      rw [hq] at this
      rcases this with h | h
      · rw [← hq, ht] at h; cases h
      · exact h
    refine ⟨?_, ?_, hmatch, ?_⟩
    · rw [hpe]; exact hb.1
    · rw [hpe]; exact hb.2
    · intro hm
      have hiff : ∀ r : Incident, (ilikeCell r.title ("%" ++ s ++ "%") = true ∨
               ilikeCell r.summary ("%" ++ s ++ "%") = true) ↔
              (containsFold r.title s ∨ containsFold r.summary s) := by
        intro r
        rw [ilikeCell_contains _ s hm, ilikeCell_contains _ s hm]
      refine ⟨hiff, ?_⟩
      intro table r hr
      exact (hiff r).mp (hmatch r (List.mem_filter.mp hr).2)
  · intro hf n
    rw [hpe]
    apply buildWhere_no_search
    rw [orElse_falsy _ _ hf]
    rfl

/-- C8 at `search=timeout` and a record titled "API Timeout". -/
theorem getIncidents_search_semantics_witness :
    buildList { emptyQuery with search := QVal.str "timeout" } =
      some { page := 1, limit := 10, offset := 0,
             whereConditions := [Cond.search 1],
             queryParams := [JsVal.str "%timeout%"], paramCounter := 2,
             safeSortBy := "created_at", safeSortOrder := "DESC" } ∧
    (ilikeCell timeoutRecord.title ("%" ++ "timeout" ++ "%") = true ∨
      ilikeCell timeoutRecord.summary ("%" ++ "timeout" ++ "%") = true ↔
     containsFold timeoutRecord.title "timeout" ∨ containsFold timeoutRecord.summary "timeout") :=
  ⟨rfl, (((getIncidents_search_semantics { emptyQuery with search := QVal.str "timeout" }
      { page := 1, limit := 10, offset := 0,
        whereConditions := [Cond.search 1],
        queryParams := [JsVal.str "%timeout%"], paramCounter := 2,
        safeSortBy := "created_at", safeSortOrder := "DESC" } rfl).1 "timeout" rfl
      (by decide)).2.2.2 (by decide)).1 timeoutRecord⟩

/-- C8 as stated fails: with `search=_` a record whose title is "a" and whose summary
is `NULL` satisfies the `WHERE` clause, although neither contains "_". -/
theorem search_substring_counterexample :
    ∃ p, buildList { emptyQuery with search := QVal.str "_" } = some p ∧
      whereHolds p.whereConditions p.queryParams shortTitleRecord = true ∧
      ¬ containsFold shortTitleRecord.title "_" ∧
      ¬ containsFold shortTitleRecord.summary "_" := by
  refine ⟨_, rfl, by decide, ?_, ?_⟩
  · rintro ⟨t, ht, hi⟩
    injection ht with ht
    subst ht
    revert hi
    decide
  · rintro ⟨t, ht, _⟩
    cases ht

/-- C9, amended: for an effective page and limit of at least 1 whose product is below
`2^53`, the offset is `(page - 1) * limit`, exactly, and is not negative; the data
query binds the limit to its `LIMIT` placeholder and the offset to its `OFFSET`
placeholder; over `totalCount` ordered matches, a count below `2^53`, the data query
returns the rows at positions `offset .. offset + limit - 1`, that is
`min(limit, totalCount - offset)` rows, and the response carries these rows with
`page`, `limit`, `totalCount` and `totalPages = ceil(totalCount / limit)`, which is
`(totalCount + limit - 1) / limit`. -/
theorem getIncidents_pagination (pool : Pool) (q : ListQuery) (p : ListPlan) (row0 : Row)
    (rest ordered : List Row) (page limit totalCount : Int)
    (hp : buildList q = some p)
    (hpage : p.page = JsNum.fin page) (hlimit : p.limit = JsNum.fin limit)
    (h1 : 1 ≤ page) (h2 : 1 ≤ limit) (hsize : page * limit < 2 ^ 53)
    (hc : pool p.countStmt = Reply.rows (row0 :: rest))
    (htc : parseIntDb (row0.get "count") = JsNum.fin totalCount)
    (ht0 : 0 ≤ totalCount) (ht1 : totalCount < 2 ^ 53)
    (hlen : ordered.length = totalCount.toNat)
    (hd : pool p.dataStmt = pageOf ordered p.dataStmt) :
    p.page = parseIntOr q.page 1 ∧ p.limit = parseIntOr q.limit 10 ∧
    p.offset = JsNum.fin ((page - 1) * limit) ∧ 0 ≤ (page - 1) * limit ∧
    p.dataStmt.sql =
      Sql.page p.whereConditions p.safeSortBy p.safeSortOrder p.paramCounter
        (p.paramCounter + 1) ∧
    paramAt p.dataStmt.params p.paramCounter = JsVal.num (JsNum.fin limit) ∧
    paramAt p.dataStmt.params (p.paramCounter + 1) =
      JsVal.num (JsNum.fin ((page - 1) * limit)) ∧
    pool p.dataStmt =
      Reply.rows (limitOffset limit.toNat ((page - 1) * limit).toNat ordered) ∧
    getIncidents pool q =
      ⟨⟨200, RespBody.list (limitOffset limit.toNat ((page - 1) * limit).toNat ordered)
          { page := JsNum.fin page, limit := JsNum.fin limit,
            totalCount := JsNum.fin totalCount,
            totalPages := JsNum.fin (Int.ceil ((totalCount : ℚ) / (limit : ℚ))) }⟩,
       [p.countStmt, p.dataStmt]⟩ ∧
    Int.ceil ((totalCount : ℚ) / (limit : ℚ)) = (totalCount + limit - 1) / limit ∧
    (limitOffset limit.toNat ((page - 1) * limit).toNat ordered).length =
      min limit.toNat (totalCount.toNat - ((page - 1) * limit).toNat) ∧
    ∀ i, i < limit.toNat →
      (limitOffset limit.toNat ((page - 1) * limit).toNat ordered)[i]? =
        ordered[((page - 1) * limit).toNat + i]? := by
  obtain ⟨hcnt, hoff, hpg, hlm⟩ := plan_counter q p hp
  have hsize2 : page * limit < 9007199254740992 := by norm_num at hsize; exact hsize
  have ht2 : totalCount < 9007199254740992 := by norm_num at ht1; exact ht1
  have hl53 : limit < 9007199254740992 := by nlinarith
  have hoff0 : 0 ≤ (page - 1) * limit := Int.mul_nonneg (by omega) (by omega)
  have hoffv : p.offset = JsNum.fin ((page - 1) * limit) := by
    rw [hoff, hpage, hlimit]
    exact offset_exact page limit h1 h2 hsize2
  have hoff53 : (page - 1) * limit < 9007199254740992 := by nlinarith
  have hrows := pageOf_exact ordered p limit ((page - 1) * limit) hcnt hlimit hoffv
    (by omega) hoff0 (by omega) (by omega)
  refine ⟨hpg, hlm, hoffv, hoff0, rfl, ?_, ?_, hd.trans hrows, ?_,
    ceil_div_closed _ _ h2, ?_, fun i hi => limitOffset_get _ _ _ i hi⟩
  · rw [hcnt, ← hlimit]; exact paramAt_append_fst _ _ _
  · rw [hcnt, ← hoffv]; exact paramAt_append_snd _ _ _
  · rw [getIncidents_ok pool q p row0 rest _ hp hc (hd.trans hrows), htc, hpage, hlimit,
      totalPages_exact totalCount limit ht0 ht2 h2 hl53]
  · rw [limitOffset_length, hlen]

/-- C9 at `limit=10&page=2` over 25 matching rows: offset 10, the 10 rows with the ids
11 to 20, 3 pages. -/
theorem getIncidents_pagination_witness :
    buildList { emptyQuery with page := QVal.str "2", limit := QVal.str "10" } =
      some { page := 2, limit := 10, offset := 10, whereConditions := [], queryParams := [],
             paramCounter := 1, safeSortBy := "created_at", safeSortOrder := "DESC" } ∧
    sampleRows.length = 25 ∧
    getIncidents countingPool { emptyQuery with page := QVal.str "2", limit := QVal.str "10" } =
      ⟨⟨200, RespBody.list
          [[("id", DbVal.text "11")], [("id", DbVal.text "12")], [("id", DbVal.text "13")],
           [("id", DbVal.text "14")], [("id", DbVal.text "15")], [("id", DbVal.text "16")],
           [("id", DbVal.text "17")], [("id", DbVal.text "18")], [("id", DbVal.text "19")],
           [("id", DbVal.text "20")]]
          { page := 2, limit := 10, totalCount := 25, totalPages := 3 }⟩,
       [⟨Sql.count [], []⟩,
        ⟨Sql.page [] "created_at" "DESC" 1 2, [JsVal.num 10, JsVal.num 10]⟩]⟩ ∧
    (limitOffset 10 10 sampleRows).length = 10 := by
  have h := getIncidents_pagination countingPool
    { emptyQuery with page := QVal.str "2", limit := QVal.str "10" }
    { page := 2, limit := 10, offset := 10, whereConditions := [], queryParams := [],
      paramCounter := 1, safeSortBy := "created_at", safeSortOrder := "DESC" }
    [("count", DbVal.text "25")] [] sampleRows 2 10 25
    rfl rfl rfl (by decide) (by decide) (by decide) rfl rfl (by decide) (by decide) rfl rfl
  obtain ⟨_, _, _, _, _, _, _, _, hres, hceil, hlen, _⟩ := h
  refine ⟨rfl, rfl, ?_, hlen.trans rfl⟩
  rw [hres, hceil]
  rfl

/-- C9 as stated fails: with `page=9007199254740993&limit=3` the effective page is
9007199254740992 and the effective limit 3, both at least 1, and the offset bound to
the data query is 27021597764222972, which is not `(page - 1) * limit`. -/
theorem pagination_rounding_counterexample :
    ∃ p, buildList { emptyQuery with page := QVal.str "9007199254740993",
                                     limit := QVal.str "3" } = some p ∧
      p.page = JsNum.fin 9007199254740992 ∧ p.limit = JsNum.fin 3 ∧
      paramAt p.dataStmt.params (p.paramCounter + 1) =
        JsVal.num (JsNum.fin 27021597764222972) ∧
      (27021597764222972 : Int) ≠ (9007199254740992 - 1) * 3 :=
  ⟨_, rfl, rfl, rfl, rfl, by decide⟩

/-- C10: two requests that agree on which of search, services, severities and
statuses are non-empty and on the resolved sort column and direction produce the
same count query text and the same data query text, whatever their search string,
filter values, page and limit. The sort column is one of the six allowed names, the
direction is `ASC` or `DESC`, and every condition is a fixed fragment over a
placeholder. -/
theorem getIncidents_query_text (q1 q2 : ListQuery) (p1 p2 : ListPlan)
    (h1 : buildList q1 = some p1) (h2 : buildList q2 = some p2)
    (hpres : presence q1 = presence q2) (hsb : p1.safeSortBy = p2.safeSortBy)
    (hso : p1.safeSortOrder = p2.safeSortOrder) :
    p1.countStmt.sql.render = p2.countStmt.sql.render ∧
    p1.dataStmt.sql.render = p2.dataStmt.sql.render ∧
    p1.safeSortBy ∈ allowedSortColumns ∧
    (p1.safeSortOrder = "ASC" ∨ p1.safeSortOrder = "DESC") ∧
    (∀ c ∈ p1.whereConditions,
      (∃ n, c = Cond.search n) ∨
      (∃ column n, c = Cond.anyOf column n ∧ column ∈ ["service", "severity", "status"])) := by
  obtain ⟨a1, b1, c1, u1, ha1, hb1, hc1, _, hp1⟩ := buildList_inv q1 p1 h1
  obtain ⟨a2, b2, c2, u2, ha2, hb2, hc2, _, hp2⟩ := buildList_inv q2 p2 h2
  simp only [presence, Prod.mk.injEq] at hpres
  obtain ⟨hs, ha, hb, hc⟩ := hpres
  have hshape := buildWhere_shape (q1.search.orElse "") (q2.search.orElse "") a1 a2 b1 b2 c1 c2
    (by rw [orElse_truthy_eq, orElse_truthy_eq, hs])
    (by rw [filterList_nil_iff _ _ ha1, filterList_nil_iff _ _ ha2, ha])
    (by rw [filterList_nil_iff _ _ hb1, filterList_nil_iff _ _ hb2, hb])
    (by rw [filterList_nil_iff _ _ hc1, filterList_nil_iff _ _ hc2, hc])
  have hw : p1.whereConditions = p2.whereConditions := by rw [hp1, hp2]; exact hshape.1
  have hn : p1.paramCounter = p2.paramCounter := by rw [hp1, hp2]; exact hshape.2
  refine ⟨?_, ?_, ?_, ?_, ?_⟩
  · simp only [ListPlan.countStmt, hw]
  · simp only [ListPlan.dataStmt, hw, hn, hsb, hso]
  · rw [hp1]; exact safeSortBy_allowed _
  · rw [hp1]
    simp only []
    split
    · left; rfl
    · right; rfl
  · rw [hp1]; exact buildWhere_conds _ _ _ _

/-- C10 at two requests with different search strings, status lists, pages, limits and
requested sort columns: one and the same data query text. -/
theorem getIncidents_query_text_witness :
    buildList { emptyQuery with search := QVal.str "timeout", statuses := QVal.str "OPEN",
                                page := QVal.str "1" } =
      some { page := 1, limit := 10, offset := 0,
             whereConditions := [Cond.search 1, Cond.anyOf "status" 2],
             queryParams := [JsVal.str "%timeout%", strArray ["OPEN"]], paramCounter := 3,
             safeSortBy := "created_at", safeSortOrder := "DESC" } ∧
    buildList { emptyQuery with search := QVal.str "x' OR 1=1 --",
                                statuses := QVal.str "RESOLVED,OPEN",
                                page := QVal.str "3", limit := QVal.str "50",
                                sortBy := QVal.str "id; DROP TABLE incidents" } =
      some { page := 3, limit := 50, offset := 100,
             whereConditions := [Cond.search 1, Cond.anyOf "status" 2],
             queryParams := [JsVal.str "%x' OR 1=1 --%", strArray ["RESOLVED", "OPEN"]],
             paramCounter := 3, safeSortBy := "created_at", safeSortOrder := "DESC" } ∧
    (Sql.page [Cond.search 1, Cond.anyOf "status" 2] "created_at" "DESC" 3 4).render =
      "\n      SELECT * FROM incidents\n      " ++
      "WHERE (title ILIKE $1 OR summary ILIKE $1) AND status = ANY($2)" ++
      "\n      ORDER BY created_at DESC\n      LIMIT $3 OFFSET $4\n    " :=
  have h := getIncidents_query_text
    { emptyQuery with search := QVal.str "timeout", statuses := QVal.str "OPEN",
                      page := QVal.str "1" }
    { emptyQuery with search := QVal.str "x' OR 1=1 --", statuses := QVal.str "RESOLVED,OPEN",
                      page := QVal.str "3", limit := QVal.str "50",
                      sortBy := QVal.str "id; DROP TABLE incidents" }
    { page := 1, limit := 10, offset := 0,
      whereConditions := [Cond.search 1, Cond.anyOf "status" 2],
      queryParams := [JsVal.str "%timeout%", strArray ["OPEN"]], paramCounter := 3,
      safeSortBy := "created_at", safeSortOrder := "DESC" }
    { page := 3, limit := 50, offset := 100,
      whereConditions := [Cond.search 1, Cond.anyOf "status" 2],
      queryParams := [JsVal.str "%x' OR 1=1 --%", strArray ["RESOLVED", "OPEN"]],
      paramCounter := 3, safeSortBy := "created_at", safeSortOrder := "DESC" }
    rfl rfl rfl rfl rfl
  ⟨rfl, rfl, h.2.1.trans rfl⟩

/-- C11: whatever the database replies, every `INSERT` sent by the creation route
(`validateIncident`, then `createIncident`) binds a severity of `SEV1..SEV4` to `$3`
and a status of `OPEN, MITIGATED, RESOLVED` to `$4`, and every `UPDATE` sent by
`updateIncident` binds a member of the enumeration wherever it assigns severity or
status. Hence a table whose records all have severity and status in their
enumerations still has after any sequence of creation and update requests. -/
theorem enumeration_invariant :
    (∀ (env : Env) (call : ApiCall) (stmt : Stmt), stmt ∈ call.issued env →
      (stmt.sql = Sql.insertIncident →
        includesStr severityValues (paramAt stmt.params 3) = true ∧
        includesStr statusValues (paramAt stmt.params 4) = true) ∧
      (∀ sets n m, stmt.sql = Sql.update sets n →
        (SetItem.bind "severity" m ∈ sets →
          includesStr severityValues (paramAt stmt.params m) = true) ∧
        (SetItem.bind "status" m ∈ sets →
          includesStr statusValues (paramAt stmt.params m) = true))) ∧
    (∀ (table : List Incident) (calls : List (Env × ApiCall)),
      (∀ r ∈ table, EnumOk r) → ∀ r ∈ apiRun table calls, EnumOk r) := by
  refine ⟨?_, fun table calls ht => apiRun_enumOk calls table ht⟩
  intro env call stmt hs
  cases call with
  | create body =>
    obtain ⟨hst, hsev, hstat, _⟩ := exec_create_stmt env body [] stmt hs
    subst hst
    refine ⟨fun _ => ⟨hsev, hstat⟩, ?_⟩
    intro sets n m h
    cases h
  | update id body =>
    rcases updateIncident_issued env.pool id body stmt hs with h | ⟨b, hb, h⟩
    · subst h
      refine ⟨fun h => (by cases h), ?_⟩
      intro sets n m h
      cases h
    · obtain ⟨he, _, hbe⟩ := buildUpdate_ok_inv id body b hb
      subst h
      refine ⟨fun h => (by cases h), ?_⟩
      intro sets n m hsql
      injection hsql with h1 h2
      subst h1
      simp only []
      rw [hbe]
      constructor
      · intro hm
        obtain ⟨hp, hv⟩ := mem_expectedSets id body "severity" m hm
        rw [hv]
        exact he.1 (List.mem_filter.mp hp).2
      · intro hm
        obtain ⟨hp, hv⟩ := mem_expectedSets id body "status" m hm
        rw [hv]
        exact he.2 (List.mem_filter.mp hp).2

/-- C11 on a table of one record, after a creation and an update that the database
accepts: two records, both within the enumerations. -/
theorem enumeration_invariant_witness :
    (∀ r ∈ oneIncidentTable, EnumOk r) ∧
    (∀ r ∈ apiRun oneIncidentTable
        [(⟨acceptingPool, "8", 200⟩, ApiCall.create emptyOwnerBody),
         (⟨acceptingPool, "9", 300⟩, ApiCall.update "7" overwritingBody)], EnumOk r) ∧
    (apiRun oneIncidentTable
        [(⟨acceptingPool, "8", 200⟩, ApiCall.create emptyOwnerBody),
         (⟨acceptingPool, "9", 300⟩, ApiCall.update "7" overwritingBody)]).length = 2 :=
  have ht : ∀ r ∈ oneIncidentTable, EnumOk r := by
    intro r hr
    simp only [oneIncidentTable, List.mem_singleton] at hr
    subst hr
    exact ⟨rfl, rfl⟩
  ⟨ht, enumeration_invariant.2 oneIncidentTable _ ht, rfl⟩

/-- C12, amended: for every payload `createIncident` sends one `INSERT` whose text
names the six columns title, service, severity, status, owner, summary, with
parameters the payload's title, service, severity, status, then `owner || null` and
`summary || null`: every falsy value (absent, `null`, `false`, `0`, the empty
string, and the number `NaN`, which no JSON body holds) is replaced by `null`, every
other value is bound as it is. When the database
answers, the response is `201` with its first row; the record inserted has the
server's id and clock in `id`, `created_at` and `updated_at`. -/
theorem createIncident_insert (pool : Pool) (body : JsObject) :
    (createIncident pool body).issued =
      [⟨Sql.insertIncident,
        [getProp body "title", getProp body "service", getProp body "severity",
         getProp body "status", orNull (getProp body "owner"),
         orNull (getProp body "summary")]⟩] ∧
    Sql.insertIncident.render =
      "\n      INSERT INTO incidents (title, service, severity, status, owner, summary)" ++
      "\n      VALUES ($1, $2, $3, $4, $5, $6)\n      RETURNING *\n    " ∧
    (∀ v : JsVal,
      (orNull v = JsVal.null ↔
        (v = JsVal.undefined ∨ v = JsVal.null ∨ v = JsVal.bool false ∨ v = JsVal.num 0 ∨
         v = JsVal.num JsNum.nan ∨ v = JsVal.str "")) ∧
      (v.truthy = true → orNull v = v)) ∧
    (∀ rs, pool ⟨Sql.insertIncident, createValues body⟩ = Reply.rows rs →
      (createIncident pool body).response = ⟨201, RespBody.row rs.head?⟩) ∧
    (pool ⟨Sql.insertIncident, createValues body⟩ = Reply.failed →
      (createIncident pool body).response = internalError) ∧
    (∀ (newId : String) (now : Nat) (table : List Incident),
      runStmt newId now table ⟨Sql.insertIncident, createValues body⟩ =
        table ++ [{ id := newId
                    title := getProp body "title"
                    service := getProp body "service"
                    severity := getProp body "severity"
                    status := getProp body "status"
                    owner := orNull (getProp body "owner")
                    summary := orNull (getProp body "summary")
                    created_at := now
                    updated_at := now }]) := by
  refine ⟨?_, rfl, ?_, ?_, ?_, ?_⟩
  · unfold createIncident
    simp only []
    cases hp : pool ⟨Sql.insertIncident, createValues body⟩ <;> rfl
  · intro v
    refine ⟨?_, orNull_truthy v⟩
    rw [← truthy_false_iff]
    cases h : v.truthy
    · simp [orNull, h]
    · simp only [orNull, h, if_true]
      constructor
      · intro hv
        rw [hv] at h
        simp [JsVal.truthy] at h
      · intro hc
        cases hc
  · intro rs h
    unfold createIncident
    simp [h]
  · intro h
    unfold createIncident
    simp [h]
  · intro newId now table
    rfl

/-- C12 at a payload with an empty owner, a summary and an `id` key: `null` for the
owner, the summary as it is, no `id` among the parameters, `201`. -/
theorem createIncident_insert_witness :
    (createIncident acceptingPool emptyOwnerBody).issued =
      [⟨Sql.insertIncident,
        [JsVal.str "Login Failure", JsVal.str "Auth", JsVal.str "SEV1", JsVal.str "OPEN",
         JsVal.null, JsVal.str "Users cannot log in"]⟩] ∧
    (createIncident acceptingPool emptyOwnerBody).response =
      ⟨201, RespBody.row (some [("id", DbVal.text "7")])⟩ :=
  have h := createIncident_insert acceptingPool emptyOwnerBody
  ⟨h.1.trans rfl, h.2.2.2.1 [[("id", DbVal.text "7")]] rfl⟩

/-- C12 as stated fails: a payload that passes validation and whose owner is the
number `0`, neither absent nor empty, has `null` bound as its owner. -/
theorem create_owner_counterexample :
    getProp zeroOwnerBody "owner" = JsVal.num 0 ∧
    postIncident existingPool zeroOwnerBody =
      RouteResult.handled (createIncident existingPool zeroOwnerBody) ∧
    ∃ stmt, (createIncident existingPool zeroOwnerBody).issued = [stmt] ∧
      paramAt stmt.params 5 = JsVal.null ∧
      paramAt stmt.params 5 ≠ getProp zeroOwnerBody "owner" := by
  refine ⟨rfl, rfl, _, rfl, rfl, ?_⟩
  show JsVal.null ≠ JsVal.num 0
  intro h
  cases h

/-- C13: the `SET` list of every `UPDATE` sent by `updateIncident` assigns only
updatable fields and `updated_at`, never `id` or `created_at`, whatever keys the
payload carries, and its `WHERE` placeholder holds the path id. Hence any sequence of
update requests leaves the `id` and `created_at` of every record as they were, and
any sequence of creation and update requests only adds records after them. An
assignment to `id`, were one sent, would change it. -/
theorem update_keeps_id_and_created_at :
    (∀ (pool : Pool) (id : String) (body : JsObject) (stmt : Stmt) (sets : List SetItem)
        (n : Nat),
      stmt ∈ (updateIncident pool id body).issued → stmt.sql = Sql.update sets n →
      (∀ m, SetItem.bind "id" m ∉ sets ∧ SetItem.bind "created_at" m ∉ sets) ∧
      (∀ item ∈ sets,
        item = SetItem.touch ∨ ∃ f m, item = SetItem.bind f m ∧ f ∈ updatableFields) ∧
      paramAt stmt.params n = JsVal.str id) ∧
    (∀ (table : List Incident) (calls : List (Env × ApiCall)),
      (∀ c ∈ calls, ∃ id body, c.2 = ApiCall.update id body) →
      (apiRun table calls).map Incident.key = table.map Incident.key) ∧
    (∀ (table : List Incident) (calls : List (Env × ApiCall)),
      ∃ added, (apiRun table calls).map Incident.key = table.map Incident.key ++ added) ∧
    (∀ (now : Nat) (r : Incident),
      (applySet now [JsVal.str "other"] [SetItem.bind "id" 1] r).id = "other") := by
  refine ⟨?_, fun table calls => (apiRun_key calls table).2,
    fun table calls => (apiRun_key calls table).1, fun now r => rfl⟩
  intro pool id body stmt sets n hs hsql
  rcases updateIncident_issued pool id body stmt hs with h | ⟨b, hb, h⟩
  · subst h
    cases hsql
  · obtain ⟨_, _, hbe⟩ := buildUpdate_ok_inv id body b hb
    subst h
    injection hsql with h1 h2
    subst h1; subst h2
    rw [hbe]
    simp only []
    have hitems := items_expectedSets body
    refine ⟨fun m => ⟨fun hm => ?_, fun hm => ?_⟩, hitems, paramAt_expected id body⟩
    · rcases hitems _ hm with h | ⟨f, k, h, hf⟩
      · cases h
      · injection h with h1 h2
        subst h1
        revert hf
        decide
    · rcases hitems _ hm with h | ⟨f, k, h, hf⟩
      · cases h
      · injection h with h1 h2
        subst h1
        revert hf
        decide

/-- C13 at an update whose payload carries `id` and `created_at`: the record keeps
both and takes the new status. -/
theorem update_keeps_id_and_created_at_witness :
    (apiRun oneIncidentTable
        [(⟨acceptingPool, "9", 300⟩, ApiCall.update "7" overwritingBody)]).map Incident.key =
      [("7", 100)] ∧
    apiRun oneIncidentTable [(⟨acceptingPool, "9", 300⟩, ApiCall.update "7" overwritingBody)] =
      [⟨"7", JsVal.str "API Timeout", JsVal.str "Backend", JsVal.str "SEV2",
        JsVal.str "RESOLVED", JsVal.null, JsVal.null, 100, 300⟩] :=
  ⟨(update_keeps_id_and_created_at.2.1 oneIncidentTable
      [(⟨acceptingPool, "9", 300⟩, ApiCall.update "7" overwritingBody)]
      (by
        intro c hc
        simp only [List.mem_singleton] at hc
        subst hc
        exact ⟨_, _, rfl⟩)).trans rfl, rfl⟩

/-- C14: for a string `sortBy` the `ORDER BY` column is `sortBy` when it is an allowed
column and `created_at` otherwise; for a string `sortOrder` the direction is `ASC`
exactly when `sortOrder` upper-cased is `ASC`, and `DESC` for every other value; with
both absent the order is `created_at DESC`. The operand of `ORDER BY` in the data
query is one of twelve fixed strings. -/
theorem getIncidents_sort_restriction (q : ListQuery) (p : ListPlan)
    (hp : buildList q = some p) :
    (∀ sortBy, q.sortBy = QVal.str sortBy →
      (sortBy ∈ allowedSortColumns → p.safeSortBy = sortBy) ∧
      (sortBy ∉ allowedSortColumns → p.safeSortBy = "created_at")) ∧
    (∀ sortOrder, q.sortOrder = QVal.str sortOrder →
      (p.safeSortOrder = "ASC" ↔ toUpperCase (QVal.str sortOrder) = some "ASC") ∧
      (p.safeSortOrder = "DESC" ↔ toUpperCase (QVal.str sortOrder) ≠ some "ASC")) ∧
    (q.sortBy = QVal.absent → q.sortOrder = QVal.absent →
      p.safeSortBy = "created_at" ∧ p.safeSortOrder = "DESC") ∧
    p.safeSortBy ++ " " ++ p.safeSortOrder ∈ orderByOperands ∧
    p.dataStmt.sql.render =
      "\n      SELECT * FROM incidents\n      " ++ whereClause p.whereConditions ++
      "\n      ORDER BY " ++ p.safeSortBy ++ " " ++ p.safeSortOrder ++
      "\n      LIMIT $" ++ toString p.paramCounter ++ " OFFSET $" ++
      toString (p.paramCounter + 1) ++ "\n    " := by
  obtain ⟨services, severities, statuses, upper, _, _, _, hu, hpe⟩ := buildList_inv q p hp
  have hsb : p.safeSortBy = safeSortBy (q.sortBy.orElse "created_at") := by rw [hpe]
  have hso : p.safeSortOrder =
      (if toUpperCase (q.sortOrder.orElse "DESC") = some "ASC" then "ASC" else "DESC") := by
    rw [hpe, hu]; simp
  refine ⟨?_, ?_, ?_, ?_, ?_⟩
  · intro sortBy hq
    rw [hsb, hq]
    refine ⟨safeSortBy_of_allowed sortBy, fun hn => ?_⟩
    exact safeSortBy_fallback _ (fun s hs => by injection hs with hs; subst hs; exact hn)
  · intro sortOrder hq
    rw [hso, hq]
    by_cases hup : toUpperCase (QVal.str sortOrder) = some "ASC"
    · have := (toUpperCase_str_orElse sortOrder).mpr hup
      simp [hup, this]
    · have : ¬ toUpperCase ((QVal.str sortOrder).orElse "DESC") = some "ASC" :=
        fun h => hup ((toUpperCase_str_orElse sortOrder).mp h)
      simp [hup, this]
  · intro h1 h2
    rw [hsb, hso, h1, h2]
    exact ⟨rfl, rfl⟩
  · apply operand_mem
    · rw [hsb]; exact safeSortBy_allowed _
    · rw [hso]; split
      · left; rfl
      · right; rfl
  · rfl

/-- C14 at `sortBy=severity&sortOrder=asc`: ordered by `severity ASC`. -/
theorem getIncidents_sort_restriction_witness :
    buildList { emptyQuery with sortBy := QVal.str "severity", sortOrder := QVal.str "asc" } =
      some { page := 1, limit := 10, offset := 0, whereConditions := [], queryParams := [],
             paramCounter := 1, safeSortBy := "severity", safeSortOrder := "ASC" } ∧
    "severity" ∈ allowedSortColumns ∧ toUpperCase (QVal.str "asc") = some "ASC" ∧
    "severity" ++ " " ++ "ASC" ∈ orderByOperands :=
  have h := getIncidents_sort_restriction
    { emptyQuery with sortBy := QVal.str "severity", sortOrder := QVal.str "asc" }
    { page := 1, limit := 10, offset := 0, whereConditions := [], queryParams := [],
      paramCounter := 1, safeSortBy := "severity", safeSortOrder := "ASC" } rfl
  ⟨rfl, by decide, ((h.2.1 "asc" rfl).1).mp rfl, h.2.2.2.1⟩

/-- C15, amended: on an existing id, for a payload whose title (or service) is any
string and whose severity and status, when present, are in their enumerations, the
response is not `400` and the `UPDATE` sent assigns that field from a placeholder
bound to that string. When the string is empty or white space only, no creation
payload carrying it in that field gets past `validateIncident`. -/
theorem updateIncident_accepts_blank (pool : Pool) (id : String) (body : JsObject)
    (rows : List Row) (field s : String)
    (hex : pool (selectByIdStmt id) = Reply.rows rows) (hrows : rows ≠ [])
    (hf : field = "title" ∨ field = "service") (hs : getProp body field = JsVal.str s)
    (he : EnumChecksPass body) :
    (updateIncident pool id body).response.status ≠ 400 ∧
    (∃ sets n values m,
      (updateIncident pool id body).issued =
        [selectByIdStmt id, ⟨Sql.update sets n, values⟩] ∧
      SetItem.bind field m ∈ sets ∧ paramAt values m = JsVal.str s) ∧
    (s.data.all isJsWhitespace = true →
      ∀ created : JsObject, getProp created field = JsVal.str s →
        (validateIncident created).outcome ≠ MwOutcome.next) := by
  have hmem : field ∈ presentFields body := by
    apply mem_presentFields
    · rcases hf with hf | hf <;> subst hf <;> decide
    · rw [hs]; rfl
  have hne : presentFields body ≠ [] := List.ne_nil_of_mem hmem
  have hb := buildUpdate_ok id body he hne
  obtain ⟨hiss, hfail, hok⟩ := updateIncident_of_ok pool id body rows _ hex hrows hb
  refine ⟨?_, ?_, ?_⟩
  · cases hp : pool ⟨Sql.update (expectedSets body) ((presentFields body).length + 1),
        expectedValues id body⟩ with
    | failed => rw [hfail hp]; simp [internalError]
    | rows rs => rw [hok rs hp]; simp
  · obtain ⟨i, hi⟩ := List.mem_iff_getElem?.mp hmem
    refine ⟨_, _, _, i + 1, hiss, List.getElem?_mem (expectedSets_getElem? body i field hi), ?_⟩
    rw [← hs]
    exact paramAt_map_append _ _ _ _ _ hi
  · intro hblank created hc
    exact validateIncident_blank created field s hf hc hblank

/-- C15 at the title "  ": accepted on update, rejected on create. -/
theorem updateIncident_accepts_blank_witness :
    existingPool (selectByIdStmt "7") =
      Reply.rows [[("id", DbVal.text "7"), ("status", DbVal.text "OPEN")]] ∧
    EnumChecksPass [("title", JsVal.str "  ")] ∧
    (updateIncident existingPool "7" [("title", JsVal.str "  ")]).response.status ≠ 400 ∧
    (validateIncident [("title", JsVal.str "  "), ("service", JsVal.str "Auth"),
        ("severity", JsVal.str "SEV1"), ("status", JsVal.str "OPEN")]).outcome ≠
      MwOutcome.next :=
  have h := updateIncident_accepts_blank existingPool "7" [("title", JsVal.str "  ")]
    [[("id", DbVal.text "7"), ("status", DbVal.text "OPEN")]] "title" "  " rfl (by simp)
    (Or.inl rfl) rfl (by unfold EnumChecksPass; decide)
  ⟨rfl, by unfold EnumChecksPass; decide, h.1, h.2.2 (by decide) _ rfl⟩

/-- C15 as stated fails: the payload `{title: '', severity: 'BAD'}` has a string title
and is answered with `400`, without an `UPDATE`. -/
theorem update_blank_title_counterexample :
    getProp [("title", JsVal.str ""), ("severity", JsVal.str "BAD")] "title" = JsVal.str "" ∧
    existingPool (selectByIdStmt "7") =
      Reply.rows [[("id", DbVal.text "7"), ("status", DbVal.text "OPEN")]] ∧
    updateIncident existingPool "7" [("title", JsVal.str ""), ("severity", JsVal.str "BAD")] =
      ⟨⟨400, RespBody.error "Invalid severity value"⟩, [selectByIdStmt "7"]⟩ :=
  ⟨rfl, rfl, rfl⟩

/-- C16: `validateIncident` throws on a payload whose title is the number `123` and
that is valid otherwise, as on a title `true` and on a service that is an array or an
object: it neither writes a `400` response nor calls `next()`, and the creation route
ends in the framework's error handling. -/
theorem validateIncident_throws_on_non_string :
    (validateIncident numberTitleBody).outcome = MwOutcome.threw ∧
    (validateIncident [("title", JsVal.bool true)]).outcome = MwOutcome.threw ∧
    (validateIncident [("title", JsVal.str "t"), ("service", JsVal.arr [])]).outcome =
      MwOutcome.threw ∧
    (validateIncident [("title", JsVal.str "t"), ("service", JsVal.obj [])]).outcome =
      MwOutcome.threw ∧
    postIncident existingPool numberTitleBody = RouteResult.unhandled :=
  ⟨rfl, rfl, rfl, rfl, rfl⟩

/-- C17, amended: the effective page and limit are never `0` and never `NaN`: an
absent, non-numeric or zero `page` gives 1 and an absent, non-numeric or zero `limit`
gives 10, any other number parsed is kept. In every plan the limit is neither `0` nor
`NaN`, so `totalPages` is never `NaN` for a count that is a number, and is
`ceil(totalCount / limit)` when count and limit are below `2^53`; and for a page of at
least 1 and a limit of at least 1 that is not `Infinity`, the offset
`(page - 1) * limit` is not negative. -/
theorem getIncidents_page_limit_defaults (q : ListQuery) :
    (parseIntOr q.page 1 ≠ 0 ∧ parseIntOr q.page 1 ≠ JsNum.nan) ∧
    (parseIntOr q.limit 10 ≠ 0 ∧ parseIntOr q.limit 10 ≠ JsNum.nan) ∧
    (q.page = QVal.absent ∨ parseIntChars q.page.toStr.data = JsNum.nan ∨
        parseIntChars q.page.toStr.data = 0 → parseIntOr q.page 1 = 1) ∧
    (q.limit = QVal.absent ∨ parseIntChars q.limit.toStr.data = JsNum.nan ∨
        parseIntChars q.limit.toStr.data = 0 → parseIntOr q.limit 10 = 10) ∧
    (∀ n, n ≠ 0 → n ≠ JsNum.nan →
      (parseIntChars q.page.toStr.data = n → parseIntOr q.page 1 = n) ∧
      (parseIntChars q.limit.toStr.data = n → parseIntOr q.limit 10 = n)) ∧
    (∀ p, buildList q = some p →
      p.page = parseIntOr q.page 1 ∧ p.limit = parseIntOr q.limit 10 ∧
      p.page ≠ 0 ∧ p.page ≠ JsNum.nan ∧ p.limit ≠ 0 ∧ p.limit ≠ JsNum.nan ∧
      (∀ t : Int, totalPages (JsNum.fin t) p.limit ≠ JsNum.nan) ∧
      (∀ t l : Int, p.limit = JsNum.fin l → 0 ≤ t → t < 2 ^ 53 → 1 ≤ l → l < 2 ^ 53 →
        (l : ℚ) ≠ 0 ∧
        totalPages (JsNum.fin t) p.limit = JsNum.fin (Int.ceil ((t : ℚ) / (l : ℚ)))) ∧
      p.offset = (p.page - 1) * p.limit ∧
      (p.page.geInt 1 = true → p.limit.geInt 1 = true → p.limit ≠ JsNum.inf false →
        p.offset.geInt 0 = true)) := by
  have hpt := parseIntOr_truthy q.page 1 rfl
  have hlt := parseIntOr_truthy q.limit 10 rfl
  refine ⟨(JsNum.truthy_iff _).mp hpt, (JsNum.truthy_iff _).mp hlt, ?_, ?_, ?_, ?_⟩
  · rintro (h | h)
    · rw [h]; rfl
    · exact parseIntOr_default _ _ h
  · rintro (h | h)
    · rw [h]; rfl
    · exact parseIntOr_default _ _ h
  · intro n hn hn2
    exact ⟨fun h => parseIntOr_number _ _ _ h hn hn2, fun h => parseIntOr_number _ _ _ h hn hn2⟩
  · intro p hp
    obtain ⟨_, hoff, hpg, hlm⟩ := plan_counter q p hp
    have hp2 := (JsNum.truthy_iff _).mp hpt
    have hl2 := (JsNum.truthy_iff _).mp hlt
    rw [← hpg] at hp2
    rw [← hlm] at hl2 hlt
    refine ⟨hpg, hlm, hp2.1, hp2.2, hl2.1, hl2.2, fun t => totalPages_ne_nan t _ hlt, ?_,
      hoff, ?_⟩
    · intro t l hl ht0 ht1 hl1 hl53
      have hl0 : l ≠ 0 := by omega
      refine ⟨by exact_mod_cast hl0, ?_⟩
      rw [hl]
      exact totalPages_exact t l ht0 (by norm_num at ht1; exact ht1) hl1
        (by norm_num at hl53; exact hl53)
    · intro h1 h2 hfin
      rw [hoff]
      exact offset_nonneg _ _ h1 h2 hfin

/-- C17 at `page=0&limit=abc`: page 1, limit 10. -/
theorem getIncidents_page_limit_defaults_witness :
    buildList { emptyQuery with page := QVal.str "0", limit := QVal.str "abc" } =
      some { page := 1, limit := 10, offset := 0, whereConditions := [], queryParams := [],
             paramCounter := 1, safeSortBy := "created_at", safeSortOrder := "DESC" } ∧
    parseIntOr (QVal.str "0") 1 = 1 ∧ parseIntOr (QVal.str "abc") 10 = 10 :=
  have h := getIncidents_page_limit_defaults
    { emptyQuery with page := QVal.str "0", limit := QVal.str "abc" }
  ⟨rfl, h.2.2.1 (Or.inr (Or.inr rfl)), h.2.2.2.1 (Or.inr (Or.inl rfl))⟩

set_option maxRecDepth 100000 in
/-- C17 as stated fails: with a limit of 310 nines and no page, the effective page is
1 and the effective limit is `Infinity`, both at least 1 and neither `0` nor `NaN`,
but the offset `(1 - 1) * Infinity` is `NaN`, which is not non-negative; `totalPages`
is 0 for a count of 25. -/
theorem infinite_limit_counterexample :
    ∃ p, buildList { emptyQuery with
                       limit := QVal.str (String.mk (List.replicate 310 '9')) } = some p ∧
      p.page = 1 ∧ p.limit = JsNum.inf false ∧
      p.page.geInt 1 = true ∧ p.limit.geInt 1 = true ∧
      p.offset = JsNum.nan ∧ p.offset.geInt 0 = false ∧
      paramAt p.dataStmt.params (p.paramCounter + 1) = JsVal.num JsNum.nan ∧
      totalPages (JsNum.fin 25) p.limit = 0 :=
  ⟨_, rfl, rfl, rfl, rfl, rfl, rfl, rfl, rfl, rfl⟩

/-- C18: with `n` the number of conditions of a request (at most 4), the `WHERE`
conditions refer to the placeholders `$1 .. $n` in order, the k-th condition to `$k`,
and `queryParams` has length `n` with the value of the k-th condition at position
`k`: the `%search%` pattern or the value list of the filter. The count query runs
with exactly these parameters; the data query uses `$n+1` for `LIMIT` and `$n+2` for
`OFFSET` over `queryParams ++ [limit, offset]`. The handler sends the count query,
then at most the data query. -/
theorem getIncidents_placeholders (q : ListQuery) (p : ListPlan) (hp : buildList q = some p) :
    (conditionTable q).length ≤ 4 ∧
    p.whereConditions = ((conditionTable q).enumFrom 1).map (fun x => x.2.1 x.1) ∧
    p.whereConditions.map Cond.param = List.range' 1 (conditionTable q).length ∧
    p.queryParams = (conditionTable q).map (fun x => x.2) ∧
    p.queryParams.length = (conditionTable q).length ∧
    (∀ k c v, (conditionTable q)[k]? = some (c, v) →
      p.whereConditions[k]? = some (c (k + 1)) ∧ paramAt p.queryParams (k + 1) = v) ∧
    p.countStmt = ⟨Sql.count p.whereConditions, p.queryParams⟩ ∧
    p.dataStmt =
      ⟨Sql.page p.whereConditions p.safeSortBy p.safeSortOrder
          ((conditionTable q).length + 1) ((conditionTable q).length + 2),
       p.queryParams ++ [JsVal.num p.limit, JsVal.num p.offset]⟩ ∧
    paramAt p.dataStmt.params ((conditionTable q).length + 1) = JsVal.num p.limit ∧
    paramAt p.dataStmt.params ((conditionTable q).length + 2) = JsVal.num p.offset ∧
    (∀ pool : Pool, (getIncidents pool q).issued = [p.countStmt] ∨
      (getIncidents pool q).issued = [p.countStmt, p.dataStmt]) := by
  obtain ⟨services, severities, statuses, upper, h1, h2, h3, _, hpe⟩ := buildList_inv q p hp
  have hb := buildWhere_table q services severities statuses h1 h2 h3
  have hw : p.whereConditions = ((conditionTable q).enumFrom 1).map (fun x => x.2.1 x.1) := by
    rw [hpe]; simp only [hb]
  have hq : p.queryParams = (conditionTable q).map (fun x => x.2) := by
    rw [hpe]; simp only [hb]
  have hn : p.paramCounter = (conditionTable q).length + 1 := by
    rw [hpe]; simp only [hb]
  have hlen : p.queryParams.length = (conditionTable q).length := by rw [hq]; simp
  refine ⟨(condParams_table q).2, hw, ?_, hq, hlen, ?_, rfl, ?_, ?_, ?_, ?_⟩
  · rw [hw]; exact (condParams_table q).1
  · intro k c v hk
    constructor
    · rw [hw, getElem?_enumFrom_map, hk]
      simp [Nat.add_comm]
    · rw [hq]
      have := paramAt_map_append (conditionTable q) (fun x => x.2) [] k (c, v) hk
      simpa using this
  · simp only [ListPlan.dataStmt, hn]
  · rw [← hlen]; exact paramAt_append_fst _ _ _
  · rw [← hlen]; exact paramAt_append_snd _ _ _
  · intro pool
    unfold getIncidents
    simp only [hp]
    cases pool p.countStmt with
    | failed => left; rfl
    | rows countRows =>
      cases countRows with
      | nil => left; rfl
      | cons row0 rest =>
        simp only [List.head?_cons]
        cases pool p.dataStmt with
        | failed => right; rfl
        | rows dataRows => right; rfl

/-- C18 at a request with a search string and a status filter: `$1`, `$2` in the
conditions, `$3` for `LIMIT`. -/
theorem getIncidents_placeholders_witness :
    buildList { emptyQuery with search := QVal.str "timeout", statuses := QVal.str "OPEN" } =
      some { page := 1, limit := 10, offset := 0,
             whereConditions := [Cond.search 1, Cond.anyOf "status" 2],
             queryParams := [JsVal.str "%timeout%", strArray ["OPEN"]], paramCounter := 3,
             safeSortBy := "created_at", safeSortOrder := "DESC" } ∧
    [Cond.search 1, Cond.anyOf "status" 2].map Cond.param = [1, 2] ∧
    paramAt ([JsVal.str "%timeout%", strArray ["OPEN"]] ++ [JsVal.num 10, JsVal.num 0]) 3 =
      JsVal.num 10 :=
  have h := getIncidents_placeholders
    { emptyQuery with search := QVal.str "timeout", statuses := QVal.str "OPEN" }
    { page := 1, limit := 10, offset := 0,
      whereConditions := [Cond.search 1, Cond.anyOf "status" 2],
      queryParams := [JsVal.str "%timeout%", strArray ["OPEN"]], paramCounter := 3,
      safeSortBy := "created_at", safeSortOrder := "DESC" } rfl
  ⟨rfl, h.2.2.1.trans rfl, h.2.2.2.2.2.2.2.2.1⟩

/-- C19: for an accepted payload with `k` present fields, `k` is between 1 and 6, the
present fields keep the fixed order title, service, severity, status, owner, summary,
the i-th assignment of the `SET` list is `field = $i` with the payload's value of
that field at position `i` of `values`, then comes `updated_at = CURRENT_TIMESTAMP`
which uses no placeholder; the `WHERE` clause is `id = $(k+1)` and `values` has
length `k + 1` with the path id last. -/
theorem updateIncident_placeholders (pool : Pool) (id : String) (body : JsObject)
    (rows : List Row) (b : UpdateBuild)
    (hex : pool (selectByIdStmt id) = Reply.rows rows) (hrows : rows ≠ [])
    (hb : buildUpdate id body = Except.ok b) :
    1 ≤ (presentFields body).length ∧ (presentFields body).length ≤ 6 ∧
    (presentFields body).Sublist updatableFields ∧
    (updateIncident pool id body).issued =
      [selectByIdStmt id, ⟨Sql.update b.updates b.paramCounter, b.values⟩] ∧
    b.updates =
      ((presentFields body).enumFrom 1).map (fun x => SetItem.bind x.2 x.1) ++
        [SetItem.touch] ∧
    b.updates.filterMap SetItem.param? = List.range' 1 (presentFields body).length ∧
    (∀ i f, (presentFields body)[i]? = some f →
      b.updates[i]? = some (SetItem.bind f (i + 1)) ∧
      paramAt b.values (i + 1) = getProp body f) ∧
    b.updates[(presentFields body).length]? = some SetItem.touch ∧
    b.paramCounter = (presentFields body).length + 1 ∧
    b.values.length = (presentFields body).length + 1 ∧
    paramAt b.values ((presentFields body).length + 1) = JsVal.str id := by
  obtain ⟨_, hne, hbe⟩ := buildUpdate_ok_inv id body b hb
  have hpos : 1 ≤ (presentFields body).length := by
    cases hl : presentFields body with
    | nil => exact absurd hl hne
    | cons a t => simp
  refine ⟨hpos, presentFields_length_le body, presentFields_sublist body,
    (updateIncident_of_ok pool id body rows b hex hrows hb).1, ?_, ?_, ?_, ?_, ?_, ?_, ?_⟩
  · rw [hbe]; rfl
  · rw [hbe]; exact setParams_enum _ 1
  · intro i f hi
    rw [hbe]
    exact ⟨expectedSets_getElem? body i f hi, paramAt_map_append _ _ _ _ _ hi⟩
  · rw [hbe]; exact expectedSets_touch body
  · rw [hbe]
  · rw [hbe]; exact expectedValues_length id body
  · rw [hbe]; exact paramAt_expected id body

/-- C19 at the payload `{status: 'RESOLVED', title: 'Fixed'}`: title is `$1`, status
`$2`, the id `$3`. -/
theorem updateIncident_placeholders_witness :
    existingPool (selectByIdStmt "7") =
      Reply.rows [[("id", DbVal.text "7"), ("status", DbVal.text "OPEN")]] ∧
    buildUpdate "7" [("status", JsVal.str "RESOLVED"), ("title", JsVal.str "Fixed")] =
      Except.ok ⟨[SetItem.bind "title" 1, SetItem.bind "status" 2, SetItem.touch],
                 [JsVal.str "Fixed", JsVal.str "RESOLVED", JsVal.str "7"], 3⟩ ∧
    (updateIncident existingPool "7"
        [("status", JsVal.str "RESOLVED"), ("title", JsVal.str "Fixed")]).issued =
      [selectByIdStmt "7",
       ⟨Sql.update [SetItem.bind "title" 1, SetItem.bind "status" 2, SetItem.touch] 3,
        [JsVal.str "Fixed", JsVal.str "RESOLVED", JsVal.str "7"]⟩] :=
  have h := updateIncident_placeholders existingPool "7"
    [("status", JsVal.str "RESOLVED"), ("title", JsVal.str "Fixed")]
    [[("id", DbVal.text "7"), ("status", DbVal.text "OPEN")]]
    ⟨[SetItem.bind "title" 1, SetItem.bind "status" 2, SetItem.touch],
     [JsVal.str "Fixed", JsVal.str "RESOLVED", JsVal.str "7"], 3⟩ rfl (by simp) rfl
  ⟨rfl, rfl, h.2.2.2.1⟩

end IncidentTracker
